import Mathlib

/-!
# goread: feed parsing and poll scheduling (`goapp/utils.go`)

A shallow embedding of `findBestAtomLink`, `parseDate`, `ParseFeed`, `parseFix`,
`loadImage`, `updateAverage` and `scheduleNextUpdate`, followed by theorems about them.

Conventions of the embedding.

* A Go `string` is a Lean `String`.
* A `time.Time` is an `Int`: nanoseconds since the zero instant of the `time` package
  (January 1, year 1, 00:00:00 UTC), so `Time.IsZero t` is `t = 0`.
* A `time.Duration` is an `Int` kept inside the `int64` range by `wrap64`.
* Calls into packages that are not part of `utils.go` (the XML decoders, `net/url`, `html`,
  the sanitizer, `time.Parse`, the datastore key function, the icon fetch) are fields of `Env`.
* The clock readings and the raw outputs of the random source are explicit arguments.
-/

set_option autoImplicit false
set_option linter.dupNamespace false

namespace Goread

/-! ## Strings -/

/-- The predicate `unicode.IsSpace`, by code point. -/
def isSpace (c : Char) : Bool :=
  let n := c.toNat
  n = 0x20 || (0x09 ≤ n && n ≤ 0x0D) || n = 0x85 || n = 0xA0 || n = 0x1680 ||
    (0x2000 ≤ n && n ≤ 0x200A) || n = 0x2028 || n = 0x2029 || n = 0x202F ||
    n = 0x205F || n = 0x3000

/-- The function `strings.TrimSpace`: leading and trailing white space removed. -/
def TrimSpace (s : String) : String :=
  String.mk (((s.toList.dropWhile isSpace).reverse.dropWhile isSpace).reverse)

/-- The function `strings.HasPrefix`. -/
def HasPrefix (s pre : String) : Bool :=
  pre.toList.isPrefixOf s.toList

/-! ## Time -/

/-! A `time.Time` is an `Int`, the nanoseconds since January 1, year 1, 00:00:00 UTC; a
`time.Duration` is an `Int`, a count of nanoseconds in the `int64` range. -/

/-- Two's-complement reduction into the `int64` range. -/
def wrap64 (x : Int) : Int := (x + 2 ^ 63) % 2 ^ 64 - 2 ^ 63

/-- The constant `minDuration` of the `time` package. -/
def minDuration : Int := -(2 ^ 63)

/-- The constant `maxDuration` of the `time` package. -/
def maxDuration : Int := 2 ^ 63 - 1

/-- The method `Time.IsZero`. -/
def IsZero (t : Int) : Bool := decide (t = 0)

/-- The method `Time.Before`. -/
def Before (t u : Int) : Bool := decide (t < u)

/-- The method `Time.Add`. -/
def Add (t : Int) (d : Int) : Int := t + d

/-- The method `Time.Sub`: the difference, saturated at the extreme durations. -/
def Sub (t u : Int) : Int :=
  if t - u > maxDuration then maxDuration
  else if t - u < minDuration then minDuration
  else t - u

/-- The function `time.Since` at the clock reading `now`. -/
def Since (now t : Int) : Int := Sub now t

/-- The method `Time.Unix`: whole seconds since January 1, 1970 UTC. -/
def Unix (t : Int) : Int := t / 1000000000 - 62135596800

/-- The variable `timeMax`: `time.Date(3000, time.January, 1, 0, 0, 0, 0, time.UTC)`. -/
def timeMax : Int := 94639276800 * 1000000000

/-! ## Records -/

/-- The fields of `Feed` that `utils.go` reads or writes. -/
structure Feed where
  Url : String
  Title : String
  Link : String
  Image : String
  Updated : Int
  Date : Int
  Checked : Int
  NextUpdate : Int
  Average : Int
  deriving DecidableEq, Repr

/-- The literal `Feed{Url: u}`. -/
def Feed.new (u : String) : Feed :=
  { Url := u, Title := "", Link := "", Image := "", Updated := 0, Date := 0, Checked := 0,
    NextUpdate := 0, Average := 0 }

/-- The fields of `Story` that `utils.go` reads or writes; `Parent` is a datastore key. -/
structure Story where
  Id : String
  Title : String
  Link : String
  Author : String
  Published : Int
  Updated : Int
  Created : Int
  Date : Int
  Parent : String
  content : String
  Summary : String
  MediaContent : String
  deriving DecidableEq, Repr

/-- The zero `Story`. -/
def Story.zero : Story :=
  { Id := "", Title := "", Link := "", Author := "", Published := 0, Updated := 0, Created := 0,
    Date := 0, Parent := "", content := "", Summary := "", MediaContent := "" }

/-- The record `DateFormat` written for a date string that no pattern parses. -/
structure DateFormat where
  Id : Int
  Feed : String
  Value : String
  deriving DecidableEq, Repr

/-- The struct `url.URL`. -/
structure URL where
  Scheme : String
  Opaque : String
  User : String
  Host : String
  Path : String
  RawQuery : String
  Fragment : String
  deriving DecidableEq, Repr

/-- The literal `url.URL{}`, also the value of `url.Parse("")`. -/
def URL.zero : URL := ⟨"", "", "", "", "", "", ""⟩

namespace atom

/-- The fields of `atom.Link` that `utils.go` reads. -/
structure Link where
  Rel : String
  Type_ : String
  Href : String
  deriving DecidableEq, Repr

/-- The struct `atom.Text`. -/
structure Text where
  Body : String
  InnerXML : String
  deriving DecidableEq, Repr

/-- The struct `atom.Person`. -/
structure Person where
  Name : String
  deriving DecidableEq, Repr

/-- The struct `atom.Entry`. -/
structure Entry where
  XMLBase : String
  ID : String
  Title : String
  Updated : String
  Published : String
  Link : List Link
  Author : Option Person
  Content : Option Text
  Summary : Option Text
  deriving DecidableEq, Repr

/-- The struct `atom.Feed`. -/
structure Feed where
  XMLBase : String
  Title : String
  Updated : String
  Link : List Link
  Entry : List Entry
  deriving DecidableEq, Repr

end atom

namespace rss

/-- The struct `rss.Guid`. -/
structure Guid where
  Guid : String
  deriving DecidableEq, Repr

/-- The struct `rss.Enclosure`. -/
structure Enclosure where
  Url : String
  Type_ : String
  deriving DecidableEq, Repr

/-- The struct `rss.Media`. -/
structure Media where
  URL : String
  Type_ : String
  deriving DecidableEq, Repr

/-- The struct `rss.Item`. -/
structure Item where
  Title : String
  Link : String
  Description : String
  Content : String
  Author : String
  PubDate : String
  Date : String
  Published : String
  Guid : Option Guid
  Enclosure : Option Enclosure
  Media : Option Media
  deriving DecidableEq, Repr

/-- The struct `rss.Rss`. -/
structure Rss where
  Title : String
  Link : String
  LastBuildDate : String
  PubDate : String
  Items : List Item
  deriving DecidableEq, Repr

end rss

namespace rdf

/-- The struct `rdf.Channel`. -/
structure Channel where
  Title : String
  Link : String
  Date : String
  deriving DecidableEq, Repr

/-- The struct `rdf.Item`. -/
structure Item where
  About : String
  Title : String
  Link : String
  Creator : String
  Description : String
  Content : String
  Date : String
  deriving DecidableEq, Repr

/-- The struct `rdf.RDF`. -/
structure RDF where
  Channel : Option Channel
  Item : List Item
  deriving DecidableEq, Repr

end rdf

/-! ## The collaborators -/

/-- The calls of `utils.go` into other packages, as functions of their arguments. -/
structure Env where
  /-- `xml.Decoder.Decode` into an `atom.Feed`, on the charset-aware reader. -/
  decodeAtom : List Nat → Except String atom.Feed
  /-- `xml.Decoder.Decode` into an `rss.Rss`. -/
  decodeRss : List Nat → Except String rss.Rss
  /-- `xml.Decoder.Decode` into an `rdf.RDF`. -/
  decodeRdf : List Nat → Except String rdf.RDF
  /-- `time.Parse(layout, value)`; `none` when it returns an error. -/
  timeParse : String → String → Option Int
  /-- `url.Parse`; `none` when it returns an error. -/
  urlParse : String → Option URL
  /-- `(*url.URL).Parse`, resolution of a reference; `none` when it returns an error. -/
  urlResolve : URL → String → Option URL
  /-- `(*url.URL).String`. -/
  urlString : URL → String
  /-- `html.UnescapeString`. -/
  UnescapeString : String → String
  /-- `sanitizer.Sanitize`. -/
  Sanitize : String → URL → String × String
  /-- `sanitizer.SnipText`. -/
  SnipText : String → Nat → String
  /-- `sanitizer.StripTags`. -/
  StripTags : String → String
  /-- `goon.Key` of a `Feed`, a function of its `Url`. -/
  feedKey : String → String
  /-- `goon.Key(s).String()` of a `Story`, a function of its parent key and its `Id`. -/
  storyKeyString : String → String → String
  /-- `goon.Get` of the `Image` with the given id: its `Url` when the record exists. -/
  imageGet : String → Option String
  /-- Fetch of the icon, storage of its bytes and issue of the serving URL; `none` when a step fails. -/
  iconFetch : String → Option String

/-- The global random source and the datastore writes of `parseDate`: `rand n` is the raw
output of the `n`-th draw, `drawn` counts the draws made, `puts` lists the `DateFormat`
records written, oldest first. -/
structure World where
  rand : Nat → Nat
  drawn : Nat
  puts : List DateFormat

/-! ## Date resolution -/

/-- The variable `dateFormats`. -/
def dateFormats : List String := [
  "01-02-2006",
  "01/02/2006",
  "01/02/2006 - 15:04",
  "01/02/2006 15:04:05 MST",
  "01/02/2006 3:04 PM",
  "02-01-2006",
  "02/01/2006",
  "02.01.2006 -0700",
  "02/01/2006 - 15:04",
  "02.01.2006 15:04",
  "02/01/2006 15:04:05",
  "02.01.2006 15:04:05",
  "02-01-2006 15:04:05 MST",
  "02 Jan 2006",
  "02 Jan 2006 15:04:05",
  "02 Jan 2006 15:04:05 -0700",
  "02 Jan 2006 15:04:05 MST",
  "02 Jan 2006 15:04:05 UT",
  "02 Jan 2006 15:04 MST",
  "06-1-2 15:04",
  "06/1/2 15:04",
  "1/2/2006",
  "1/2/2006 15:04:05 MST",
  "1/2/2006 3:04:05 PM",
  "1/2/2006 3:04:05 PM MST",
  "15:04 02.01.2006 -0700",
  "2006-01-02",
  "2006/01/02",
  "2006-01-02 00:00:00.0 15:04:05.0 -0700",
  "2006-01-02 15:04",
  "2006-01-02 15:04:05 -0700",
  "2006-01-02 15:04:05-07:00",
  "2006-01-02 15:04:05-0700",
  "2006-01-02 15:04:05 MST",
  "2006-01-02 15:04:05Z",
  "2006-01-02T15:04:05",
  "2006-01-02T15:04:05:00",
  "2006-01-02T15:04:05 -0700",
  "2006-01-02T15:04:05-07:00",
  "2006-01-02T15:04:05-0700",
  "2006-01-02T15:04:05:-0700",
  "2006-01-02T15:04:05-07:00:00",
  "2006-01-02T15:04:05Z",
  "2006-01-02T15:04-07:00",
  "2006-01-02T15:04Z",
  "2006-1-02T15:04:05Z",
  "2006-1-2",
  "2006-1-2 15:04:05",
  "2006-1-2T15:04:05Z",
  "2006 January 02",
  "2-1-2006",
  "2/1/2006",
  "2.1.2006 15:04:05",
  "2 Jan 2006",
  "2 Jan 2006 15:04:05 -0700",
  "2 Jan 2006 15:04:05 MST",
  "2 Jan 2006 15:04:05 Z",
  "2 January 2006",
  "2 January 2006 15:04:05 -0700",
  "2 January 2006 15:04:05 MST",
  "6-1-2 15:04",
  "6/1/2 15:04",
  "Jan 02, 2006",
  "Jan 02 2006 03:04:05PM",
  "Jan 2, 2006",
  "Jan 2, 2006 15:04:05 MST",
  "Jan 2, 2006 3:04:05 PM",
  "Jan 2, 2006 3:04:05 PM MST",
  "January 02, 2006",
  "January 02, 2006 03:04 PM",
  "January 02, 2006 15:04",
  "January 02, 2006 15:04:05 MST",
  "January 2, 2006",
  "January 2, 2006 03:04 PM",
  "January 2, 2006 15:04:05",
  "January 2, 2006 15:04:05 MST",
  "January 2, 2006, 3:04 p.m.",
  "January 2, 2006 3:04 PM",
  "Mon, 02 Jan 06 15:04:05 MST",
  "Mon, 02 Jan 2006",
  "Mon, 02 Jan 2006 15:04:05",
  "Mon, 02 Jan 2006 15:04:05 00",
  "Mon, 02 Jan 2006 15:04:05 -07",
  "Mon 02 Jan 2006 15:04:05 -0700",
  "Mon, 02 Jan 2006 15:04:05 --0700",
  "Mon, 02 Jan 2006 15:04:05 -07:00",
  "Mon, 02 Jan 2006 15:04:05 -0700",
  "Mon,02 Jan 2006 15:04:05 -0700",
  "Mon, 02 Jan 2006 15:04:05 GMT-0700",
  "Mon , 02 Jan 2006 15:04:05 MST",
  "Mon, 02 Jan 2006 15:04:05 MST",
  "Mon, 02 Jan 2006 15:04:05MST",
  "Mon, 02 Jan 2006 15:04:05 MST -0700",
  "Mon, 02 Jan 2006 15:04:05 MST-07:00",
  "Mon, 02 Jan 2006 15:04:05 UT",
  "Mon, 02 Jan 2006 15:04:05 Z",
  "Mon, 02 Jan 2006 15:04 -0700",
  "Mon, 02 Jan 2006 15:04 MST",
  "Mon,02 Jan 2006 15:04 MST",
  "Mon, 02 Jan 2006 3:04:05 PM MST",
  "Mon, 02 January 2006",
  "Mon,02 January 2006 14:04:05 MST",
  "Mon, 2006-01-02 15:04",
  "Mon, 2 Jan 06 15:04:05 -0700",
  "Mon, 2 Jan 06 15:04:05 MST",
  "Mon, 2 Jan 15:04:05 MST",
  "Mon, 2 Jan 2006",
  "Mon,2 Jan 2006",
  "Mon, 2 Jan 2006 15:04",
  "Mon, 2 Jan 2006 15:04:05",
  "Mon, 2 Jan 2006 15:04:05 -0700",
  "Mon, 2 Jan 2006 15:04:05-0700",
  "Mon, 2 Jan 2006 15:04:05 -0700 MST",
  "mon,2 Jan 2006 15:04:05 MST",
  "Mon 2 Jan 2006 15:04:05 MST",
  "Mon, 2 Jan 2006 15:04:05 MST",
  "Mon, 2 Jan 2006 15:04:05MST",
  "Mon, 2 Jan 2006 15:04:05 UT",
  "Mon, 2 Jan 2006 15:04 -0700",
  "Mon, 2 Jan 2006, 15:04 -0700",
  "Mon, 2 Jan 2006 15:04 MST",
  "Mon, 2, Jan 2006 15:4",
  "Mon, 2 Jan 2006 15:4:5 -0700 GMT",
  "Mon, 2 Jan 2006 15:4:5 MST",
  "Mon, 2 Jan 2006 3:04:05 PM -0700",
  "Mon, 2 January 2006 15:04:05 -0700",
  "Mon, 2 January 2006 15:04:05 MST",
  "Mon, 2 January 2006, 15:04:05 MST",
  "Mon, 2 January 2006, 15:04 -0700",
  "Mon, 2 January 2006 15:04 MST",
  "Monday, 02 January 2006 15:04:05",
  "Monday, 02 January 2006 15:04:05 -0700",
  "Monday, 02 January 2006 15:04:05 MST",
  "Monday, 2 Jan 2006 15:04:05 -0700",
  "Monday, 2 Jan 2006 15:04:05 MST",
  "Monday, 2 January 2006 15:04:05 -0700",
  "Monday, 2 January 2006 15:04:05 MST",
  "Monday, January 02, 2006",
  "Monday, January 2, 2006",
  "Monday, January 2, 2006 03:04 PM",
  "Monday, January 2, 2006 15:04:05 MST",
  "Mon Jan 02 2006 15:04:05 -0700",
  "Mon, Jan 02,2006 15:04:05 MST",
  "Mon Jan 02, 2006 3:04 pm",
  "Mon Jan 2 15:04:05 2006 MST",
  "Mon Jan 2 15:04 2006",
  "Mon, Jan 2 2006 15:04:05 -0700",
  "Mon, Jan 2 2006 15:04:05 -700",
  "Mon, Jan 2, 2006 15:04:05 MST",
  "Mon, January 02, 2006 15:04:05 MST",
  "Mon, January 02, 2006, 15:04:05 MST",
  "Mon, January 2 2006 15:04:05 -0700",
  "Mon Jan _2 15:04:05 2006",
  "Mon, 02 Jan 2006 15:04:05 MST",
  "Mon, 02 Jan 2006 15:04:05 -0700",
  "2006-01-02T15:04:05Z07:00",
  "02 Jan 06 15:04 MST",
  "02 Jan 06 15:04 -0700",
  "Monday, 02-Jan-06 15:04:05 MST",
  "Mon Jan 02 15:04:05 -0700 2006",
  "Mon Jan _2 15:04:05 MST 2006",
  "Updated January 2, 2006"
]

/-- The constant `dateFormatCount`. -/
def dateFormatCount : Nat := 500

/-- The inner loop of `parseDate`: the first layout that parses `d`. -/
def parseFormats (env : Env) (d : String) : List String → Option Int
  | [] => none
  | f :: fs =>
    match env.timeParse f d with
    | some t => some t
    | none => parseFormats env d fs

/-- The outer loop of `parseDate` over the remaining candidates; `ds` is the whole argument
list, joined into the error message. The result is `(t, err)` and the world afterwards. -/
def parseDateLoop (env : Env) (feed : Feed) (ds : List String) :
    List String → World → (Int × Option String) × World
  | [], w => ((0, some ("could not parse date: " ++ ", ".intercalate ds)), w)
  | d :: rest, w =>
    let d := TrimSpace d
    if d = "" then parseDateLoop env feed ds rest w
    else
      match parseFormats env d dateFormats with
      | some t => ((t, none), w)
      | none =>
        let df : DateFormat :=
          { Id := ((w.rand w.drawn % dateFormatCount : Nat) : Int), Feed := feed.Url, Value := d }
        parseDateLoop env feed ds rest { w with drawn := w.drawn + 1, puts := w.puts ++ [df] }

/-- The function `parseDate`. -/
def parseDate (env : Env) (feed : Feed) (ds : List String) (w : World) :
    (Int × Option String) × World :=
  parseDateLoop env feed ds ds w

/-! ## Atom links -/

/-- The closure `getScore` of `findBestAtomLink`. -/
def getScore (l : atom.Link) : Int :=
  if l.Rel = "hub" then 0
  else if l.Rel = "alternate" ∧ l.Type_ = "text/html" then 4
  else if l.Type_ = "text/html" then 3
  else if l.Rel ≠ "self" then 2
  else 1

/-- One iteration of the loop of `findBestAtomLink` on the pair `(bestlink, bestscore)`. -/
def bestStep (st : atom.Link × Int) (l : atom.Link) : atom.Link × Int :=
  if getScore l > st.2 then (l, getScore l) else st

/-- The loop of `findBestAtomLink` from a given `(bestlink, bestscore)`. -/
def bestLoop (st : atom.Link × Int) (links : List atom.Link) : atom.Link × Int :=
  links.foldl bestStep st

/-- The function `findBestAtomLink`: `bestlink` starts as the zero `atom.Link`, `bestscore` as `-1`. -/
def findBestAtomLink (links : List atom.Link) : atom.Link :=
  (bestLoop ((⟨"", "", ""⟩ : atom.Link), -1) links).1

/-! ## Normalisation -/

/-- What `ParseFeed` and `parseFix` return: `(*Feed, []*Story, error)`, a nil pointer or error
being `none` and a nil slice the empty list. -/
structure Result where
  feed : Option Feed
  stories : List Story
  err : Option String
  deriving DecidableEq, Repr

/-- The function `loadImage`. -/
def loadImage (env : Env) (f : Feed) : String :=
  let s := if f.Link = "" then f.Url else f.Link
  match env.urlParse s with
  | none => ""
  | some u =>
    let u := { u with Path := "/favicon.ico", RawQuery := "", Fragment := "" }
    match env.imageGet (env.urlString u) with
    | some url => url
    | none =>
      match env.iconFetch (env.urlString u) with
      | none => ""
      | some url => url

/-- The constant `keySize` of `parseFix`. -/
def keySize : Nat := 500

/-- The constant `snipLen` of `parseFix`. -/
def snipLen : Nat := 100

/-- How the body of the story loop of `parseFix` ends for one story: `return` with the error,
`continue` past the story, or `append` of the story to `nss`. -/
inductive Fixed where
  | abort : Fixed
  | skip : Fixed
  | keep : Story → Fixed
  deriving DecidableEq, Repr

/-- The statements of the story loop of `parseFix` that reconcile the timestamps. -/
def fixDates (f : Feed) (s : Story) : Story :=
  let s := if !IsZero s.Updated && IsZero s.Published then { s with Published := s.Updated } else s
  let s := if IsZero s.Published || Before f.Checked s.Published then
    { s with Published := f.Checked } else s
  if !IsZero s.Updated then { s with Date := Unix s.Updated }
  else { s with Date := Unix s.Published }

/-- The statements of the story loop of `parseFix` that assign the `Id`; `none` is the
`return nil, nil, fmt.Errorf("Bad item data in feed")`. -/
def fixId (s : Story) : Option Story :=
  if s.Id = "" then
    if s.Link ≠ "" then some { s with Id := s.Link }
    else if s.Title ≠ "" then some { s with Id := s.Title }
    else none
  else some s

/-- The statement `if s.Link == "" { if u, err := url.Parse(s.Id); err == nil { ... } }` of the
story loop of `parseFix`. -/
def linkFromId (env : Env) (s : Story) : Story :=
  if s.Link = "" then
    match env.urlParse s.Id with
    | some u => { s with Link := env.urlString u }
    | none => s
  else s

/-- The statement `if base != nil && s.Link != "" { ... }` of the story loop of `parseFix`. -/
def linkResolve (env : Env) (base : Option URL) (s : Story) : Story :=
  match base with
  | none => s
  | some b =>
    if s.Link ≠ "" then
      match env.urlResolve b s.Link with
      | some link => { s with Link := env.urlString link }
      | none => s
    else s

/-- The statements of the story loop of `parseFix` that derive and resolve the `Link`. -/
def fixLink (env : Env) (base : Option URL) (s : Story) : Story :=
  linkResolve env base (linkFromId env s)

/-- The last three statements of the story loop of `parseFix`, for the URL `su`. -/
def sanitizeStory (env : Env) (su : URL) (s : Story) : Story :=
  let r := env.Sanitize s.content su
  let s := { s with content := r.1, Summary := r.2 }
  let s := { s with Summary := env.SnipText s.Summary snipLen }
  { s with Title := env.UnescapeString (env.StripTags s.Title) }

/-- The statements of the story loop of `parseFix` after the key check. -/
def fixContent (env : Env) (s : Story) : Story :=
  match env.urlParse s.Link with
  | some su => sanitizeStory env su s
  | none => sanitizeStory env URL.zero { s with Link := "" }

/-- The body of the story loop of `parseFix`, for the feed `f` (already fixed), its key `fk`
and the `base` URL. -/
def fixStory (env : Env) (f : Feed) (fk : String) (base : Option URL) (s : Story) : Fixed :=
  let s := { s with Parent := fk }
  let s := { s with Created := f.Checked }
  let s := { s with Link := TrimSpace s.Link }
  let s := fixDates f s
  match fixId s with
  | none => Fixed.abort
  | some s =>
    let s := fixLink env base s
    if (env.storyKeyString s.Parent s.Id).utf8ByteSize > keySize then Fixed.skip
    else Fixed.keep (fixContent env s)

/-- The story loop of `parseFix`, with `nss` the stories appended so far; `none` when the
loop returns the error. -/
def fixLoop (env : Env) (f : Feed) (fk : String) (base : Option URL) :
    List Story → List Story → Option (List Story)
  | [], nss => some nss
  | s :: rest, nss =>
    match fixStory env f fk base s with
    | Fixed.abort => none
    | Fixed.skip => fixLoop env f fk base rest nss
    | Fixed.keep s => fixLoop env f fk base rest (nss ++ [s])

/-- The statements of `parseFix` before the story loop, on the feed; `now` is the value of
`time.Now()`. -/
def fixFeed (env : Env) (now : Int) (f : Feed) : Feed :=
  let f := { f with Checked := now }
  let f := { f with Image := loadImage env f }
  let f := { f with Link := TrimSpace f.Link }
  let f := { f with Title := env.UnescapeString f.Title }
  match env.urlParse f.Url with
  | none => f
  | some u =>
    match env.urlResolve u f.Link with
    | none => f
    | some ul => { f with Link := env.urlString ul }

/-- The function `parseFix`; `now` is the value of `time.Now()`. The stories of `ss` are
distinct objects, as they are in every call from `ParseFeed`. -/
def parseFix (env : Env) (now : Int) (f : Feed) (ss : List Story) : Result :=
  let fk := env.feedKey f.Url
  let f := fixFeed env now f
  let base := env.urlParse f.Link
  match fixLoop env f fk base ss [] with
  | none => { feed := none, stories := [], err := some "Bad item data in feed" }
  | some nss => { feed := some f, stories := nss, err := none }

/-! ## Decoding -/

/-- The statement `if t, err := parseDate(...); err == nil { set t }` on a record. -/
def withDate {α : Type} (env : Env) (f : Feed) (ds : List String) (set : α → Int → α)
    (x : α) (w : World) : α × World :=
  let r := parseDate env f ds w
  match r.1.2 with
  | none => (set x r.1.1, r.2)
  | some _ => (x, r.2)

/-- The resolution `if l, err := b.Parse(link); err == nil { link = l.String() }`. -/
def resolveLink (env : Env) (b : URL) (link : String) : String :=
  match env.urlResolve b link with
  | some l => env.urlString l
  | none => link

/-- The content of an Atom entry, as the entry loop of `ParseFeed` assigns it. -/
def atomContent (i : atom.Entry) : String :=
  match i.Content with
  | some c =>
    if TrimSpace c.Body ≠ "" then c.Body
    else if c.InnerXML ≠ "" then c.InnerXML
    else ""
  | none =>
    match i.Summary with
    | some sm => sm.Body
    | none => ""

/-- The body of the entry loop of the Atom branch of `ParseFeed`. -/
def atomStory (env : Env) (f : Feed) (fb : URL) (i : atom.Entry) (w : World) : Story × World :=
  let eb := match env.urlResolve fb i.XMLBase with
    | some eb => eb
    | none => fb
  let st : Story := { Story.zero with Id := i.ID, Title := i.Title }
  let r1 := withDate env f [i.Updated] (fun st t => { st with Updated := t }) st w
  let r2 := withDate env f [i.Published] (fun st t => { st with Published := t }) r1.1 r1.2
  let st := r2.1
  let st :=
    if i.Link.length > 0 then
      { st with Link := resolveLink env eb (findBestAtomLink i.Link).Href }
    else st
  let st := match i.Author with
    | some a => { st with Author := a.Name }
    | none => st
  ({ st with content := atomContent i }, r2.2)

/-- The title of the draft story of an RSS item: the item loop assigns `st.Title` only in the
branch `i.Title != ""`; the other branch assigns to the loop variable `i.Title`. -/
def rssTitle (i : rss.Item) : String :=
  if i.Title ≠ "" then i.Title else ""

/-- The loop variable `i` after the title statement of the RSS item loop. -/
def rssItemTitled (i : rss.Item) : rss.Item :=
  if i.Title ≠ "" then i
  else if i.Description ≠ "" then { i with Title := i.Description }
  else i

/-- The content of the draft story of an RSS item; `i` is the loop variable after the title
statement. -/
def rssContent (i : rss.Item) : String :=
  if i.Content ≠ "" then i.Content
  else if i.Title ≠ "" ∧ i.Description ≠ "" then i.Description
  else ""

/-- The `MediaContent` of the draft story of an RSS item. -/
def rssMedia (i : rss.Item) : String :=
  match i.Enclosure with
  | some e =>
    if HasPrefix e.Type_ "audio/" then e.Url
    else
      match i.Media with
      | some m => if HasPrefix m.Type_ "audio/" then m.URL else ""
      | none => ""
  | none =>
    match i.Media with
    | some m => if HasPrefix m.Type_ "audio/" then m.URL else ""
    | none => ""

/-- The body of the item loop of the RSS branch of `ParseFeed` before the call of
`parseDate`. -/
def rssFields (i : rss.Item) : Story :=
  let st : Story := { Story.zero with Link := i.Link, Author := i.Author }
  let st := { st with Title := rssTitle i }
  let i := rssItemTitled i
  let st := { st with content := rssContent i }
  let st := match i.Guid with
    | some g => { st with Id := g.Guid }
    | none => st
  { st with MediaContent := rssMedia i }

/-- The body of the item loop of the RSS branch of `ParseFeed`. -/
def rssStory (env : Env) (f : Feed) (i : rss.Item) (w : World) : Story × World :=
  let j := rssItemTitled i
  withDate env f [j.PubDate, j.Date, j.Published]
    (fun st t => { st with Published := t, Updated := t }) (rssFields i) w

/-- The body of the item loop of the RDF branch of `ParseFeed` before the call of
`parseDate`. -/
def rdfFields (env : Env) (i : rdf.Item) : Story :=
  let st : Story :=
    { Story.zero with Id := i.About, Title := i.Title, Link := i.Link, Author := i.Creator }
  if i.Description.length > 0 then { st with content := env.UnescapeString i.Description }
  else if i.Content.length > 0 then { st with content := env.UnescapeString i.Content }
  else st

/-- The body of the item loop of the RDF branch of `ParseFeed`. -/
def rdfStory (env : Env) (f : Feed) (i : rdf.Item) (w : World) : Story × World :=
  withDate env f [i.Date] (fun st t => { st with Published := t, Updated := t })
    (rdfFields env i) w

/-- A loop `for _, i := range items { ...; s = append(s, &st) }` of `ParseFeed`. -/
def storyLoop {ι : Type} (body : ι → World → Story × World) :
    List ι → List Story → World → List Story × World
  | [], s, w => (s, w)
  | i :: rest, s, w =>
    let r := body i w
    storyLoop body rest (s ++ [r.1]) r.2

/-- The Atom branch of `ParseFeed` up to the call of `parseFix`: the draft feed, the draft
stories and the world. -/
def atomDraft (env : Env) (u : String) (a : atom.Feed) (w : World) :
    Feed × List Story × World :=
  let f := { Feed.new u with Title := a.Title }
  let r := withDate env f [a.Updated] (fun (f : Feed) t => { f with Updated := t }) f w
  let f : Feed := r.1
  let fb := match env.urlParse a.XMLBase with
    | some fb => fb
    | none => URL.zero
  let f :=
    if a.Link.length > 0 then
      { f with Link := resolveLink env fb (findBestAtomLink a.Link).Href }
    else f
  let l := storyLoop (atomStory env f fb) a.Entry [] r.2
  (f, l.1, l.2)

/-- The RSS branch of `ParseFeed` up to the call of `parseFix`. -/
def rssDraft (env : Env) (u : String) (r : rss.Rss) (w : World) :
    Feed × List Story × World :=
  let f := { Feed.new u with Title := r.Title, Link := r.Link }
  let d := withDate env f [r.LastBuildDate, r.PubDate]
    (fun (f : Feed) t => { f with Updated := t }) f w
  let l := storyLoop (rssStory env d.1) r.Items [] d.2
  (d.1, l.1, l.2)

/-- The RDF branch of `ParseFeed` up to the call of `parseFix`. -/
def rdfDraft (env : Env) (u : String) (rd : rdf.RDF) (w : World) :
    Feed × List Story × World :=
  let f := Feed.new u
  let d :=
    match rd.Channel with
    | some ch =>
      let f := { f with Title := ch.Title, Link := ch.Link }
      withDate env f [ch.Date] (fun (f : Feed) t => { f with Updated := t }) f w
    | none => (f, w)
  let l := storyLoop (rdfStory env d.1) rd.Item [] d.2
  (d.1, l.1, l.2)

/-- The function `ParseFeed`; `now` is the value that `time.Now()` has in `parseFix`. -/
def ParseFeed (env : Env) (now : Int) (u : String) (b : List Nat) (w : World) :
    Result × World :=
  match env.decodeAtom b with
  | .ok a =>
    let d := atomDraft env u a w
    (parseFix env now d.1 d.2.1, d.2.2)
  | .error _ =>
    match env.decodeRss b with
    | .ok r =>
      let d := rssDraft env u r w
      (parseFix env now d.1 d.2.1, d.2.2)
    | .error _ =>
      match env.decodeRdf b with
      | .ok rd =>
        let d := rdfDraft env u rd w
        (parseFix env now d.1 d.2.1, d.2.2)
      | .error _ =>
        ({ feed := none, stories := [], err := some "Could not parse feed data" }, w)

/-! ## Poll scheduling -/

/-- The constants of the scheduler, declared outside `utils.go`, and its three `float64`
expressions, each as the `time.Duration` it is converted to. -/
structure Settings where
  UpdateDefault : Int
  UpdateMin : Int
  UpdateMax : Int
  UpdateJitter : Int
  UpdateLongFactor : Int
  /-- `float64(average) * UpdateFraction`. -/
  scaleAverage : Int → Int
  /-- `float64(since) / UpdateLongFactor`. -/
  divideSince : Int → Int
  /-- `float64(average) * (1.0 - NewIntervalWeight) + float64(interval) * NewIntervalWeight`. -/
  blendAverage : Int → Int → Int

/-- The function `updateAverage`; `now` is the clock reading of `time.Since`. -/
def updateAverage (cfg : Settings) (now : Int) (f : Feed) (previousUpdate : Int)
    (updateCount : Int) : Feed :=
  if IsZero previousUpdate || decide (updateCount < 1) then f
  else
    let interval := (Since now previousUpdate).tdiv updateCount
    { f with Average := wrap64 (cfg.blendAverage f.Average interval) }

/-- The call `rand.Int63n(n)` on the raw output `r`; `none` is its panic for `n <= 0`. -/
def Int63n (n : Int) (r : Nat) : Option Int :=
  if n ≤ 0 then none else some ((r : Int) % n)

/-- The pause of `scheduleNextUpdate` before the jitter; `now` is the clock reading of
`time.Since(f.Date)`. -/
def clampedPause (cfg : Settings) (now : Int) (f : Feed) : Int :=
  let pause := wrap64 (cfg.scaleAverage f.Average)
  let pause := if pause = 0 then cfg.UpdateDefault else pause
  let since := Since now f.Date
  let pause :=
    if since > wrap64 (pause * cfg.UpdateLongFactor) then wrap64 (cfg.divideSince since)
    else pause
  let pause := if pause < cfg.UpdateMin then cfg.UpdateMin else pause
  if pause > cfg.UpdateMax then cfg.UpdateMax else pause

/-- The pause of `scheduleNextUpdate` after the jitter: `r1` and `r2` are the raw outputs of
the draws of `rand.Int63n` and `rand.Intn(2)`; `none` is the panic of `rand.Int63n`. -/
def jitteredPause (cfg : Settings) (now : Int) (r1 r2 : Nat) (f : Feed) : Option Int :=
  match Int63n cfg.UpdateJitter r1 with
  | none => none
  | some jitter =>
    let pause := clampedPause cfg now f
    if r2 % 2 = 0 then some (wrap64 (pause + jitter))
    else some (wrap64 (pause - jitter))

/-- The function `scheduleNextUpdate`. `notViewed` is the value of `f.NotViewed()`; `now1`,
`now2`, `now3` are the clock readings of `time.Now()`, `time.Since(f.Date)` and the last
`time.Now()`; `r1`, `r2` are the raw outputs of the two draws. `none` is a panic. -/
def scheduleNextUpdate (cfg : Settings) (notViewed : Bool) (now1 now2 now3 : Int)
    (r1 r2 : Nat) (f : Feed) : Option Feed :=
  if notViewed then some { f with NextUpdate := timeMax }
  else if IsZero f.Date then some { f with NextUpdate := Add now1 cfg.UpdateDefault }
  else
    match jitteredPause cfg now2 r1 r2 f with
    | none => none
    | some pause => some { f with NextUpdate := Add now3 pause }

/-! ## Floating point

The `float64` arithmetic of `updateAverage`: IEEE 754 binary64 with rounding to nearest, ties
to even, each operation rounded on its own. The values that occur are finite and far below
the overflow threshold, so infinities and NaN are left out. -/

/-- A finite `float64` value, the number `m * 2 ^ e`. -/
structure F64 where
  m : Int
  e : Int
  deriving DecidableEq, Repr

/-- The number of binary digits of `n`, counted in at most `fuel` halvings. -/
def bitLengthFuel : Nat → Nat → Nat
  | 0, _ => 0
  | fuel + 1, n => if n = 0 then 0 else bitLengthFuel fuel (n / 2) + 1

/-- The number of binary digits of `n`. -/
def bitLength (n : Nat) : Nat :=
  bitLengthFuel n n

/-- The `float64` nearest to `m * 2 ^ e`: the low `k` digits of `m` are dropped, where `k`
leaves 53 digits and an exponent of at least `-1074`; the quotient goes up when the dropped
part is above one half, or equal to one half with an odd quotient. -/
def F64.round (m e : Int) : F64 :=
  let n := m.natAbs
  let drop := max ((bitLength n : Int) - 53) (-1074 - e)
  if drop ≤ 0 then ⟨m, e⟩
  else
    let k := drop.toNat
    let q := n / 2 ^ k
    let r := n % 2 ^ k
    let q := if 2 * r > 2 ^ k ∨ (2 * r = 2 ^ k ∧ q % 2 = 1) then q + 1 else q
    ⟨m.sign * (q : Int), e + drop⟩

/-- The conversion `float64(n)` of an integer. -/
def F64.ofInt (n : Int) : F64 :=
  F64.round n 0

/-- The product of two `float64` values. -/
def F64.mul (x y : F64) : F64 :=
  F64.round (x.m * y.m) (x.e + y.e)

/-- The sum of two `float64` values. -/
def F64.add (x y : F64) : F64 :=
  let e := min x.e y.e
  F64.round (x.m * ((2 ^ (x.e - e).toNat : Nat) : Int) + y.m * ((2 ^ (y.e - e).toNat : Nat) : Int)) e

/-- The conversion of a `float64` value to an integer type: the fraction is discarded. The
result is the mathematical one; for a value outside the `int64` range Go leaves the
converted value to the implementation. -/
def F64.toInt (x : F64) : Int :=
  if 0 ≤ x.e then x.m * ((2 ^ x.e.toNat : Nat) : Int)
  else x.m.tdiv ((2 ^ (-x.e).toNat : Nat) : Int)

/-- The expression `float64(average) * (1.0 - NewIntervalWeight) + float64(interval) *
NewIntervalWeight` of `updateAverage`, converted to an integer; `c0` and `c1` are the
`float64` values of the constants `1.0 - NewIntervalWeight` and `NewIntervalWeight`. -/
def float64Blend (c0 c1 : F64) (average interval : Int) : Int :=
  let old := F64.mul (F64.ofInt average) c0
  let cur := F64.mul (F64.ofInt interval) c1
  F64.toInt (F64.add old cur)

/-- Settings whose smoothing expression is evaluated in `float64` with the weights `c0` for
the old average and `c1` for the new interval. -/
def withFloatBlend (c0 c1 : F64) (cfg : Settings) : Settings :=
  { cfg with blendAverage := float64Blend c0 c1 }

/-- The product of two `float64` values left exact, as it is inside a fused multiply-add. -/
def F64.exactMul (x y : F64) : F64 :=
  ⟨x.m * y.m, x.e + y.e⟩

/-- The ways in which an implementation may evaluate `old + cur` in `updateAverage`, where
`old` and `cur` are products that no explicit conversion rounds: Go lets it combine a product
with the sum into one fused operation with one rounding. Either each product is rounded on
its own, or the product `old`, or the product `cur`, or both are fused with the sum. -/
inductive Fusion where
  | separate : Fusion
  | oldProduct : Fusion
  | newProduct : Fusion
  | both : Fusion
  deriving DecidableEq, Repr

/-- The value of `float64(average) * (1.0 - NewIntervalWeight)` that enters the sum: rounded
to nearest, or exact when the product is fused with the sum. -/
def fusedOld (fz : Fusion) (c0 : F64) (average : Int) : F64 :=
  match fz with
  | Fusion.separate => F64.mul (F64.ofInt average) c0
  | Fusion.newProduct => F64.mul (F64.ofInt average) c0
  | Fusion.oldProduct => F64.exactMul (F64.ofInt average) c0
  | Fusion.both => F64.exactMul (F64.ofInt average) c0

/-- The value of `float64(interval) * NewIntervalWeight` that enters the sum: rounded to
nearest, or exact when the product is fused with the sum. -/
def fusedNew (fz : Fusion) (c1 : F64) (interval : Int) : F64 :=
  match fz with
  | Fusion.separate => F64.mul (F64.ofInt interval) c1
  | Fusion.oldProduct => F64.mul (F64.ofInt interval) c1
  | Fusion.newProduct => F64.exactMul (F64.ofInt interval) c1
  | Fusion.both => F64.exactMul (F64.ofInt interval) c1

/-- The smoothing expression of `updateAverage`, converted to an integer, as an implementation
with the fusion `fz` evaluates it; `F64.add` rounds the sum once. -/
def float64BlendFused (fz : Fusion) (c0 c1 : F64) (average interval : Int) : Int :=
  F64.toInt (F64.add (fusedOld fz c0 average) (fusedNew fz c1 interval))

/-- Settings whose smoothing expression is evaluated in `float64` with the fusion `fz`. -/
def withFusedBlend (fz : Fusion) (c0 c1 : F64) (cfg : Settings) : Settings :=
  { cfg with blendAverage := float64BlendFused fz c0 c1 }

/-- The `float64` nearest to `0.96`. -/
def sampleWeightOld : F64 := ⟨8646911284551352, -53⟩

/-- The `float64` nearest to `0.04`. -/
def sampleWeightNew : F64 := ⟨5764607523034235, -57⟩

/-! ## Auxiliary definitions for the statements -/

/-- The story that the loop body of `parseFix` appends for `s`, if it appends one. -/
def fixKept (env : Env) (f : Feed) (fk : String) (base : Option URL) (s : Story) :
    Option Story :=
  match fixStory env f fk base s with
  | Fixed.keep s => some s
  | _ => none

/-- Equality of two results of `ParseFeed` in every field except `Feed.Checked` and
`Story.Created`. -/
def agreeExceptCheckedCreated (a b : Result) : Prop :=
  a.err = b.err ∧
  a.feed.map (fun f => { f with Checked := 0 }) = b.feed.map (fun f => { f with Checked := 0 }) ∧
  a.stories.map (fun s => { s with Created := 0 })
    = b.stories.map (fun s => { s with Created := 0 })

instance (a b : Result) : Decidable (agreeExceptCheckedCreated a b) := by
  unfold agreeExceptCheckedCreated
  infer_instance

/-- A story with the three fields that `parseFix` fills from the clock set to zero. -/
def eraseClock (s : Story) : Story :=
  { s with Created := 0, Published := 0, Date := 0 }

/-- A story with the three fields that `parseFix` fills from the clock set to given values. -/
def setClock (c p d : Int) (s : Story) : Story :=
  { s with Created := c, Published := p, Date := d }

/-- A function on stories applied to the story that a loop body appends. -/
def Fixed.map (g : Story → Story) : Fixed → Fixed
  | Fixed.abort => Fixed.abort
  | Fixed.skip => Fixed.skip
  | Fixed.keep s => Fixed.keep (g s)

/-- The body of the story loop of `parseFix` from the assignment of the `Id` on. -/
def fixTail (env : Env) (base : Option URL) (s : Story) : Fixed :=
  match fixId s with
  | none => Fixed.abort
  | some s =>
    let s := fixLink env base s
    if (env.storyKeyString s.Parent s.Id).utf8ByteSize > keySize then Fixed.skip
    else Fixed.keep (fixContent env s)

/-- Three lists matched element by element by the relation `R`. -/
inductive ForallThree {α β γ : Type} (R : α → β → γ → Prop) :
    List α → List β → List γ → Prop where
  | nil : ForallThree R [] [] []
  | cons {a : α} {b : β} {c : γ} {l1 : List α} {l2 : List β} {l3 : List γ} :
    R a b c → ForallThree R l1 l2 l3 → ForallThree R (a :: l1) (b :: l2) (c :: l3)

/-- The draft date of a story: its `Published`, or its `Updated` when `Published` is unset. -/
def draftDate (d : Story) : Int :=
  if d.Published = 0 then d.Updated else d.Published

/-- Agreement of the stories `s` and `t` that the runs at the clock readings `now1` and `now2`
return for the draft `d`. They are equal in every field except `Created`, `Published` and
`Date`. `Created` is the clock reading of the run. `Published` is the draft date, except
that a run whose clock reading is before the draft date, or any run when the draft date is
unset, sets it to its clock reading. `Date` is the epoch seconds of the draft `Updated` when
that is set, and of the run's `Published` otherwise. So `Date` is the same in both runs when
`Updated` is set, and `Published` and `Date` are the same when neither run clamps. -/
def storiesAgree (now1 now2 : Int) (d s t : Story) : Prop :=
  eraseClock s = eraseClock t ∧
  s.Created = now1 ∧ t.Created = now2 ∧
  s.Published = (if draftDate d ≠ 0 ∧ draftDate d ≤ now1 then draftDate d else now1) ∧
  t.Published = (if draftDate d ≠ 0 ∧ draftDate d ≤ now2 then draftDate d else now2) ∧
  s.Date = (if d.Updated ≠ 0 then Unix d.Updated else Unix s.Published) ∧
  t.Date = (if d.Updated ≠ 0 then Unix d.Updated else Unix t.Published) ∧
  (d.Updated ≠ 0 → s.Date = t.Date) ∧
  (draftDate d ≠ 0 → draftDate d ≤ now1 → draftDate d ≤ now2 →
    s.Published = t.Published ∧ s.Date = t.Date)

/-- Agreement of the results of two runs of `ParseFeed` at the clock readings `now1` and
`now2`, for the draft stories `drafts` of the runs: the same error, feeds equal except for
`Checked`, which is the clock reading of the run, and stories that come, one pair for each
draft of a sublist `kept` of the drafts and in its order, in the agreement `storiesAgree`. -/
def agreeExceptClock (now1 now2 : Int) (drafts : List Story) (a b : Result) : Prop :=
  a.err = b.err ∧
  a.feed.map (fun f => { f with Checked := 0 }) = b.feed.map (fun f => { f with Checked := 0 }) ∧
  (∀ g, a.feed = some g → g.Checked = now1) ∧
  (∀ g, b.feed = some g → g.Checked = now2) ∧
  ∃ kept : List Story, kept.Sublist drafts ∧
    ForallThree (storiesAgree now1 now2) kept a.stories b.stories

/-- The draft stories that `ParseFeed` hands to `parseFix`: those of the branch of the first
decoder that succeeds, and none when the three decoders fail. -/
def ParseFeedDrafts (env : Env) (u : String) (b : List Nat) (w : World) : List Story :=
  match env.decodeAtom b with
  | .ok a => (atomDraft env u a w).2.1
  | .error _ =>
    match env.decodeRss b with
    | .ok r => (rssDraft env u r w).2.1
    | .error _ =>
      match env.decodeRdf b with
      | .ok rd => (rdfDraft env u rd w).2.1
      | .error _ => []

/-- Sample settings: a default wait of one hour, pauses between ten minutes and one day, one
minute of jitter, and exact arithmetic in place of the floating-point expressions. -/
def sampleSettings : Settings :=
  { UpdateDefault := 3600000000000
    UpdateMin := 600000000000
    UpdateMax := 86400000000000
    UpdateJitter := 60000000000
    UpdateLongFactor := 3
    scaleAverage := fun a => a / 2
    divideSince := fun d => d / 3
    blendAverage := fun a i => (a * 96 + i * 4) / 100 }

/-- A sample feed: last content on 2013-01-01, an average interval of two hours. -/
def sampleFeed : Feed :=
  { Feed.new "http://example.org/feed" with
    Date := 63492595200000000000, Average := 7200000000000 }

/-- Sample collaborators: the bytes decode as the RSS document `r` and as nothing else, only
the layout `2006-01-02` parses and only the value `2013-05-01`, a URL is kept whole in its
`Path`, a reference resolves to itself, the sanitizer and the unescaping are the identity. -/
def sampleEnv (r : rss.Rss) : Env :=
  { decodeAtom := fun _ => .error "not an atom feed"
    decodeRss := fun _ => .ok r
    decodeRdf := fun _ => .error "not an rdf feed"
    timeParse := fun layout v =>
      if layout = "2006-01-02" ∧ v = "2013-05-01" then some 63502963200000000000 else none
    urlParse := fun x => some { URL.zero with Path := x }
    urlResolve := fun _ ref => some { URL.zero with Path := ref }
    urlString := fun u => u.Path
    UnescapeString := fun x => x
    Sanitize := fun c _ => (c, c)
    SnipText := fun x n => String.mk (x.toList.take n)
    StripTags := fun x => x
    feedKey := fun u => u
    storyKeyString := fun parent id => parent ++ "|" ++ id
    imageGet := fun _ => none
    iconFetch := fun _ => none }

/-- A sample world: the `n`-th draw of the random source gives `7 * n + 1234`. -/
def sampleWorld : World :=
  { rand := fun n => 7 * n + 1234, drawn := 0, puts := [] }

/-- A sample RSS document: one item, with a link and a description and with no title, no
content, no guid and no date. -/
def sampleRss : rss.Rss :=
  { Title := "Example feed"
    Link := "http://example.org/"
    LastBuildDate := ""
    PubDate := "2013-05-01"
    Items := [
      { Title := "", Link := "http://example.org/1", Description := "hello", Content := "",
        Author := "", PubDate := "", Date := "", Published := "", Guid := none,
        Enclosure := none, Media := none }] }

/-- Three sample draft stories: the second has no `Id`, a blank `Link` and no `Title`. -/
def sampleDrafts : List Story :=
  [{ Story.zero with Id := "a", Title := "First" },
   { Story.zero with Link := " \t" },
   { Story.zero with Link := "http://example.org/3", Title := "Third" }]

/-- An error value carries the message `msg`: the message occurs in its text. -/
def carriesMessage (err msg : String) : Prop :=
  List.IsInfix msg.toList err.toList

instance (err msg : String) : Decidable (carriesMessage err msg) := by
  unfold carriesMessage
  infer_instance

/-- Sample collaborators on which the three decoders fail, each with its own message. -/
def brokenEnv : Env :=
  { sampleEnv sampleRss with
    decodeAtom := fun _ => .error "expected element type <feed> but have <html>"
    decodeRss := fun _ => .error "expected element type <rss> but have <html>"
    decodeRdf := fun _ => .error "expected element type <RDF> but have <html>" }

/-- Sample collaborators on which the bytes decode as the Atom document `a`. -/
def atomEnv (a : atom.Feed) : Env :=
  { sampleEnv sampleRss with decodeAtom := fun _ => .ok a }

/-- The content of an Atom entry as the specification words it: the content body if
non-blank, else the raw inner markup if non-empty, else the summary body. -/
def specAtomContent (i : atom.Entry) : String :=
  let body := match i.Content with
    | some c => c.Body
    | none => ""
  let inner := match i.Content with
    | some c => c.InnerXML
    | none => ""
  if TrimSpace body ≠ "" then body
  else if inner ≠ "" then inner
  else
    match i.Summary with
    | some sm => sm.Body
    | none => ""

/-- A sample Atom document: one entry, with a content element whose body is blank and whose
inner markup is empty, and with a summary. -/
def sampleAtom : atom.Feed :=
  { XMLBase := ""
    Title := "Example feed"
    Updated := "2013-05-01"
    Link := []
    Entry := [
      { XMLBase := "", ID := "tag:example.org,2013:1", Title := "First", Updated := "",
        Published := "", Link := [], Author := none,
        Content := some { Body := "", InnerXML := "" },
        Summary := some { Body := "short text", InnerXML := "short text" } }] }

/-- Three sample draft stories, all identifiable: the first has only an `Updated` date, the
second an `Id` of 600 bytes, the third a `Published` date after the sample clock readings. -/
def sampleGoodDrafts : List Story :=
  [{ Story.zero with Id := "a", Title := "First", Updated := 63400000000000000000 },
   { Story.zero with Id := String.mk (List.replicate 600 'x'), Title := "Long" },
   { Story.zero with Link := " http://example.org/3 ", Title := "Third",
                     Published := 63600000000000000000 }]

/-- The content of the draft story of an Atom entry, case by case: with a content element,
its body when non-blank, else its inner markup when non-empty, else nothing; without a
content element, the summary body when there is a summary, else nothing. -/
def AtomContentRule (i : atom.Entry) (content : String) : Prop :=
  (∀ c, i.Content = some c → TrimSpace c.Body ≠ "" → content = c.Body) ∧
  (∀ c, i.Content = some c → TrimSpace c.Body = "" → c.InnerXML ≠ "" →
    content = c.InnerXML) ∧
  (∀ c, i.Content = some c → TrimSpace c.Body = "" → c.InnerXML = "" → content = "") ∧
  (∀ sm, i.Content = none → i.Summary = some sm → content = sm.Body) ∧
  (i.Content = none → i.Summary = none → content = "")

/-- The value that the smoothing formula `average * (1 - w) + interval * w` has in exact
arithmetic for the weight `w = wn / wd`, truncated to a whole number. -/
def specSmoothing (wn wd : Nat) (average interval : Int) : Int :=
  (average * ((wd : Int) - (wn : Int)) + interval * (wn : Int)).tdiv (wd : Int)

/-- The item has an enclosure whose declared type starts with `audio/`. -/
def audioEnclosure (i : rss.Item) : Prop :=
  ∃ e, i.Enclosure = some e ∧ HasPrefix e.Type_ "audio/" = true

/-- The item has a media element whose declared type starts with `audio/`. -/
def audioMedia (i : rss.Item) : Prop :=
  ∃ m, i.Media = some m ∧ HasPrefix m.Type_ "audio/" = true

/-- The `MediaContent` of the draft story of an RSS item, case by case: the URL of the
enclosure when the item has an audio enclosure, else the URL of the media element when the
item has an audio media element, else nothing. -/
def RssMediaRule (i : rss.Item) (media : String) : Prop :=
  (∀ e, i.Enclosure = some e → HasPrefix e.Type_ "audio/" = true → media = e.Url) ∧
  (∀ m, ¬ audioEnclosure i → i.Media = some m → HasPrefix m.Type_ "audio/" = true →
    media = m.URL) ∧
  (¬ audioEnclosure i → ¬ audioMedia i → media = "")

/-- A sample RSS document with four items: an audio enclosure next to a video media element,
a video enclosure next to an audio media element, an image enclosure alone, and neither. -/
def sampleMediaRss : rss.Rss :=
  { Title := "Example podcast"
    Link := "http://example.org/"
    LastBuildDate := ""
    PubDate := ""
    Items := [
      { Title := "One", Link := "http://example.org/1", Description := "", Content := "",
        Author := "", PubDate := "", Date := "", Published := "", Guid := none,
        Enclosure := some { Url := "http://example.org/1.mp3", Type_ := "audio/mpeg" },
        Media := some { URL := "http://example.org/1.mp4", Type_ := "video/mp4" } },
      { Title := "Two", Link := "http://example.org/2", Description := "", Content := "",
        Author := "", PubDate := "", Date := "", Published := "", Guid := none,
        Enclosure := some { Url := "http://example.org/2.mp4", Type_ := "video/mp4" },
        Media := some { URL := "http://example.org/2.ogg", Type_ := "audio/ogg" } },
      { Title := "Three", Link := "http://example.org/3", Description := "", Content := "",
        Author := "", PubDate := "", Date := "", Published := "", Guid := none,
        Enclosure := some { Url := "http://example.org/3.png", Type_ := "image/png" },
        Media := none },
      { Title := "Four", Link := "http://example.org/4", Description := "", Content := "",
        Author := "", PubDate := "", Date := "", Published := "", Guid := none,
        Enclosure := none, Media := none }] }

/-- A sample RSS document with two items: the first is dated 2013-05-01, after the sample
clock readings, the second has no date. -/
def sampleDatedRss : rss.Rss :=
  { Title := "Example feed"
    Link := "http://example.org/"
    LastBuildDate := ""
    PubDate := ""
    Items := [
      { Title := "Ahead", Link := "http://example.org/1", Description := "", Content := "",
        Author := "", PubDate := "2013-05-01", Date := "", Published := "", Guid := none,
        Enclosure := none, Media := none },
      { Title := "Undated", Link := "http://example.org/2", Description := "", Content := "",
        Author := "", PubDate := "", Date := "", Published := "", Guid := none,
        Enclosure := none, Media := none }] }

/-! ## Theorems: best-link selection -/

theorem getScore_nonneg (l : atom.Link) : 0 ≤ getScore l := by
  unfold getScore
  split_ifs <;> decide

/-- Outcome of the scan: either nothing beat the starting score, or the result is the first
element that reaches the maximum, and that maximum beats the starting score. -/
theorem bestLoop_spec (links : List atom.Link) :
    ∀ st : atom.Link × Int,
      (bestLoop st links = st ∧ ∀ x ∈ links, getScore x ≤ st.2) ∨
      (∃ pre l post, links = pre ++ l :: post ∧ bestLoop st links = (l, getScore l) ∧
        st.2 < getScore l ∧ (∀ x ∈ pre, getScore x < getScore l) ∧
        (∀ x ∈ post, getScore x ≤ getScore l)) := by
  induction links with
  | nil => intro st; left; simp [bestLoop]
  | cons a rest ih =>
    intro st
    have hstep : bestLoop st (a :: rest) = bestLoop (bestStep st a) rest := rfl
    by_cases hgt : getScore a > st.2
    · have hst : bestStep st a = (a, getScore a) := by simp [bestStep, hgt]
      rw [hstep, hst]
      right
      rcases ih (a, getScore a) with ⟨heq, hle⟩ | ⟨pre, l, post, hsplit, heq, hlt, hpre, hpost⟩
      · exact ⟨[], a, rest, rfl, heq, hgt, by simp, hle⟩
      · refine ⟨a :: pre, l, post, by simp [hsplit], heq, lt_trans hgt hlt, ?_, hpost⟩
        intro x hx
        rcases List.mem_cons.1 hx with rfl | hx
        · exact hlt
        · exact hpre x hx
    · have hst : bestStep st a = st := by simp [bestStep, hgt]
      rw [hstep, hst]
      rcases ih st with ⟨heq, hle⟩ | ⟨pre, l, post, hsplit, heq, hlt, hpre, hpost⟩
      · left
        refine ⟨heq, ?_⟩
        intro x hx
        rcases List.mem_cons.1 hx with rfl | hx
        · exact not_lt.1 hgt
        · exact hle x hx
      · right
        refine ⟨a :: pre, l, post, by simp [hsplit], heq, hlt, ?_, hpost⟩
        intro x hx
        rcases List.mem_cons.1 hx with rfl | hx
        · exact lt_of_le_of_lt (not_lt.1 hgt) hlt
        · exact hpre x hx

/-- C1: for a non-empty list of Atom links, `findBestAtomLink` returns an element of the list
(the list splits as `pre ++ l :: post` with `l` the result), every element before it has a
strictly lower score (so none has an equal or a higher one), no element after it has a higher
score, and the scores are those of the table hub=0, alternate+text/html=4, text/html=3,
rel not self=2, otherwise 1. For the hub link and the alternate/text-html link, in either
order, the alternate/text-html link is returned. -/
theorem findBestAtomLink_first_maximal (links : List atom.Link) (hne : links ≠ []) :
    (∃ pre l post, links = pre ++ l :: post ∧ findBestAtomLink links = l ∧
        (∀ x ∈ pre, getScore x < getScore l) ∧ (∀ x ∈ post, getScore x ≤ getScore l)) ∧
    (∀ x : atom.Link, getScore x =
        if x.Rel = "hub" then 0
        else if x.Rel = "alternate" ∧ x.Type_ = "text/html" then 4
        else if x.Type_ = "text/html" then 3
        else if x.Rel ≠ "self" then 2 else 1) ∧
    (∀ h1 h2 : String,
        findBestAtomLink [⟨"hub", "", h1⟩, ⟨"alternate", "text/html", h2⟩]
          = ⟨"alternate", "text/html", h2⟩ ∧
        findBestAtomLink [⟨"alternate", "text/html", h2⟩, ⟨"hub", "", h1⟩]
          = ⟨"alternate", "text/html", h2⟩) := by
  refine ⟨?_, fun _ => rfl, ?_⟩
  · rcases bestLoop_spec links ((⟨"", "", ""⟩ : atom.Link), -1) with
      ⟨_, hle⟩ | ⟨pre, l, post, hsplit, heq, _, hpre, hpost⟩
    · cases links with
      | nil => exact absurd rfl hne
      | cons a rest =>
        have h1 := hle a (List.mem_cons_self a rest)
        have h2 := getScore_nonneg a
        simp only at h1
        omega
    · exact ⟨pre, l, post, hsplit, by simp [findBestAtomLink, heq], hpre, hpost⟩
  · intro h1 h2
    constructor <;>
      simp [findBestAtomLink, bestLoop, bestStep, getScore]

theorem findBestAtomLink_first_maximal_witness :
    ([⟨"self", "application/atom+xml", "a"⟩, ⟨"", "text/html", "b"⟩,
        ⟨"related", "text/html", "c"⟩] : List atom.Link) ≠ [] ∧
    findBestAtomLink [⟨"self", "application/atom+xml", "a"⟩, ⟨"", "text/html", "b"⟩,
        ⟨"related", "text/html", "c"⟩] = ⟨"", "text/html", "b"⟩ ∧
    (∃ pre l post,
      ([⟨"self", "application/atom+xml", "a"⟩, ⟨"", "text/html", "b"⟩,
        ⟨"related", "text/html", "c"⟩] : List atom.Link) = pre ++ l :: post ∧
      findBestAtomLink [⟨"self", "application/atom+xml", "a"⟩, ⟨"", "text/html", "b"⟩,
        ⟨"related", "text/html", "c"⟩] = l ∧
      (∀ x ∈ pre, getScore x < getScore l) ∧ (∀ x ∈ post, getScore x ≤ getScore l)) :=
  ⟨by simp, by decide,
    (findBestAtomLink_first_maximal
      [⟨"self", "application/atom+xml", "a"⟩, ⟨"", "text/html", "b"⟩,
        ⟨"related", "text/html", "c"⟩] (by simp)).1⟩

/-! ## Theorems: poll scheduling -/

theorem wrap64_of_range (x : Int) (hlo : -(2 ^ 63) ≤ x) (hhi : x ≤ 2 ^ 63 - 1) :
    wrap64 x = x := by
  unfold wrap64
  omega

theorem clampedPause_range (cfg : Settings) (now : Int) (f : Feed)
    (hmm : cfg.UpdateMin ≤ cfg.UpdateMax) :
    cfg.UpdateMin ≤ clampedPause cfg now f ∧ clampedPause cfg now f ≤ cfg.UpdateMax := by
  unfold clampedPause
  simp only
  split_ifs <;> constructor <;> omega

/-- C2: when `f.NotViewed()` is true, `scheduleNextUpdate` returns normally and sets `NextUpdate`
to `timeMax`, the instant 3000-01-01 00:00:00 UTC (94639276800 seconds after the zero instant),
whatever `Average`, `Date`, the settings, the clock readings and the random draws are; no other
field changes. -/
theorem scheduleNextUpdate_notViewed (cfg : Settings) (now1 now2 now3 : Int) (r1 r2 : Nat)
    (f : Feed) :
    scheduleNextUpdate cfg true now1 now2 now3 r1 r2 f = some { f with NextUpdate := timeMax } ∧
    timeMax = 94639276800 * 1000000000 ∧
    Unix timeMax = 32503680000 := by
  refine ⟨by simp [scheduleNextUpdate], rfl, by decide⟩

/-- C3: for a feed with `NotViewed` false and `Date` set, with `UpdateMin <= UpdateMax`,
`UpdateJitter > 0` and both ends of the interval representable as durations,
`scheduleNextUpdate` returns normally and `NextUpdate` is the last clock reading plus a pause
that lies in `[UpdateMin - UpdateJitter, UpdateMax + UpdateJitter]`, for every `Average`, every
clock reading, every outcome of the two draws and every value of the three floating-point
expressions. -/
theorem scheduleNextUpdate_pause_bounds (cfg : Settings) (now1 now2 now3 : Int) (r1 r2 : Nat)
    (f : Feed) (hdate : f.Date ≠ 0)
    (hmm : cfg.UpdateMin ≤ cfg.UpdateMax) (hj : 0 < cfg.UpdateJitter)
    (hlo : minDuration ≤ cfg.UpdateMin - cfg.UpdateJitter)
    (hhi : cfg.UpdateMax + cfg.UpdateJitter ≤ maxDuration) :
    ∃ pause : Int,
      scheduleNextUpdate cfg false now1 now2 now3 r1 r2 f
        = some { f with NextUpdate := Add now3 pause } ∧
      cfg.UpdateMin - cfg.UpdateJitter ≤ pause ∧ pause ≤ cfg.UpdateMax + cfg.UpdateJitter := by
  have hrange := clampedPause_range cfg now2 f hmm
  have hj0 : 0 ≤ (r1 : Int) % cfg.UpdateJitter := Int.emod_nonneg _ (by omega)
  have hj1 : (r1 : Int) % cfg.UpdateJitter < cfg.UpdateJitter := Int.emod_lt_of_pos _ hj
  have hz : IsZero f.Date = false := by simp [IsZero, hdate]
  have h63 : Int63n cfg.UpdateJitter r1 = some ((r1 : Int) % cfg.UpdateJitter) := by
    simp [Int63n, hj]
  unfold minDuration at hlo
  unfold maxDuration at hhi
  by_cases hcoin : r2 % 2 = 0
  · refine ⟨clampedPause cfg now2 f + (r1 : Int) % cfg.UpdateJitter, ?_, by omega, by omega⟩
    have hw := wrap64_of_range (clampedPause cfg now2 f + (r1 : Int) % cfg.UpdateJitter)
      (by omega) (by omega)
    simp [scheduleNextUpdate, hz, jitteredPause, h63, hcoin, hw]
  · refine ⟨clampedPause cfg now2 f - (r1 : Int) % cfg.UpdateJitter, ?_, by omega, by omega⟩
    have hw := wrap64_of_range (clampedPause cfg now2 f - (r1 : Int) % cfg.UpdateJitter)
      (by omega) (by omega)
    simp [scheduleNextUpdate, hz, jitteredPause, h63, hcoin, hw]

set_option maxRecDepth 100000 in
theorem scheduleNextUpdate_pause_bounds_witness :
    sampleFeed.Date ≠ 0 ∧
    scheduleNextUpdate sampleSettings false 63500000000000000000 63500000000000000001
        63500000000000000002 1000000000000007 3 sampleFeed
      = some { sampleFeed with NextUpdate := 63500000000000000002 + 86360000000000 - 7 } ∧
    ∃ pause : Int,
      scheduleNextUpdate sampleSettings false 63500000000000000000 63500000000000000001
          63500000000000000002 1000000000000007 3 sampleFeed
        = some { sampleFeed with NextUpdate := Add 63500000000000000002 pause } ∧
      sampleSettings.UpdateMin - sampleSettings.UpdateJitter ≤ pause ∧
      pause ≤ sampleSettings.UpdateMax + sampleSettings.UpdateJitter :=
  ⟨by decide, by decide,
    scheduleNextUpdate_pause_bounds sampleSettings 63500000000000000000 63500000000000000001
      63500000000000000002 1000000000000007 3 sampleFeed (by decide) (by decide) (by decide)
      (by decide) (by decide)⟩

/-- C4: `updateAverage` returns the feed unchanged, `Average` and every other field, when
`previousUpdate` is the zero time or `updateCount < 1`. -/
theorem updateAverage_noop (cfg : Settings) (now : Int) (f : Feed) (previousUpdate : Int)
    (updateCount : Int) (h : previousUpdate = 0 ∨ updateCount < 1) :
    updateAverage cfg now f previousUpdate updateCount = f := by
  rcases h with h | h <;> simp [updateAverage, IsZero, h]

theorem updateAverage_noop_witness :
    ((0 : Int) = 0 ∨ (5 : Int) < 1) ∧
    updateAverage sampleSettings 63500000000000000000 sampleFeed 0 5 = sampleFeed ∧
    updateAverage sampleSettings 63500000000000000000 sampleFeed 63499990000000000000 5
      ≠ sampleFeed :=
  ⟨Or.inl rfl,
    updateAverage_noop sampleSettings 63500000000000000000 sampleFeed 0 5 (Or.inl rfl),
    by decide⟩

/-! ## Theorems: normalisation -/

theorem fixDates_fields (f : Feed) (s : Story) :
    (fixDates f s).Id = s.Id ∧ (fixDates f s).Title = s.Title ∧ (fixDates f s).Link = s.Link ∧
    (fixDates f s).Parent = s.Parent := by
  unfold fixDates
  simp only
  split_ifs <;> simp

theorem fixId_eq_none (s : Story) :
    fixId s = none ↔ s.Id = "" ∧ s.Link = "" ∧ s.Title = "" := by
  unfold fixId
  split_ifs <;> simp_all

theorem fixId_some_Id (s t : Story) (h : fixId s = some t) :
    t.Id = (if s.Id ≠ "" then s.Id else if s.Link ≠ "" then s.Link else s.Title) ∧
    t.Parent = s.Parent := by
  unfold fixId at h
  split_ifs at h with h1 h2 h3 <;> simp_all
  all_goals (subst h; simp)

theorem linkFromId_fields (env : Env) (s : Story) :
    (linkFromId env s).Id = s.Id ∧ (linkFromId env s).Parent = s.Parent := by
  unfold linkFromId
  constructor <;> (repeat' split) <;> rfl

theorem linkResolve_fields (env : Env) (base : Option URL) (s : Story) :
    (linkResolve env base s).Id = s.Id ∧ (linkResolve env base s).Parent = s.Parent := by
  unfold linkResolve
  constructor <;> (repeat' split) <;> rfl

theorem fixLink_fields (env : Env) (base : Option URL) (s : Story) :
    (fixLink env base s).Id = s.Id ∧ (fixLink env base s).Parent = s.Parent := by
  unfold fixLink
  rw [(linkResolve_fields env base _).1, (linkResolve_fields env base _).2,
    (linkFromId_fields env s).1, (linkFromId_fields env s).2]
  exact ⟨rfl, rfl⟩

theorem fixContent_Id (env : Env) (s : Story) : (fixContent env s).Id = s.Id := by
  unfold fixContent
  split <;> rfl

/-- The loop body returns the error exactly for a story without `Id`, without `Link` after
trimming and without `Title`. -/
theorem fixStory_abort_iff (env : Env) (f : Feed) (fk : String) (base : Option URL)
    (s : Story) :
    fixStory env f fk base s = Fixed.abort ↔
      s.Id = "" ∧ TrimSpace s.Link = "" ∧ s.Title = "" := by
  have hd := fixDates_fields f
    { s with Parent := fk, Created := f.Checked, Link := TrimSpace s.Link }
  have hn := fixId_eq_none (fixDates f
    { s with Parent := fk, Created := f.Checked, Link := TrimSpace s.Link })
  simp only [hd.1, hd.2.1, hd.2.2.1] at hn
  unfold fixStory
  simp only
  split
  · rename_i heq
    simp only [true_iff]
    exact hn.1 heq
  · rename_i t heq
    have hne : ¬ (s.Id = "" ∧ TrimSpace s.Link = "" ∧ s.Title = "") := by
      intro hc
      rw [hn.2 hc] at heq
      exact Option.noConfusion heq
    split_ifs <;> simp [hne]

/-- The `Id` of an appended story. -/
theorem fixStory_keep_Id (env : Env) (f : Feed) (fk : String) (base : Option URL)
    (s t : Story) (h : fixStory env f fk base s = Fixed.keep t) :
    t.Id = if s.Id ≠ "" then s.Id
      else if TrimSpace s.Link ≠ "" then TrimSpace s.Link else s.Title := by
  have hd := fixDates_fields f
    { s with Parent := fk, Created := f.Checked, Link := TrimSpace s.Link }
  unfold fixStory at h
  simp only at h
  split at h
  · exact Fixed.noConfusion h
  · rename_i u heq
    have hu := (fixId_some_Id _ u heq).1
    simp only [hd.1, hd.2.1, hd.2.2.1] at hu
    split_ifs at h
    injection h with h
    rw [← h, fixContent_Id, (fixLink_fields env base u).1, hu]

/-- The story loop returns the error as soon as one story makes the body return it. -/
theorem fixLoop_abort (env : Env) (f : Feed) (fk : String) (base : Option URL)
    (ss : List Story) :
    ∀ nss : List Story, (∃ s ∈ ss, fixStory env f fk base s = Fixed.abort) →
      fixLoop env f fk base ss nss = none := by
  induction ss with
  | nil => intro nss h; simp at h
  | cons a rest ih =>
    intro nss h
    unfold fixLoop
    split
    · rfl
    · rename_i hs
      apply ih
      rcases h with ⟨s, hmem, habort⟩
      rcases List.mem_cons.1 hmem with rfl | hmem
      · rw [hs] at habort; exact Fixed.noConfusion habort
      · exact ⟨s, hmem, habort⟩
    · rename_i t hs
      apply ih
      rcases h with ⟨s, hmem, habort⟩
      rcases List.mem_cons.1 hmem with rfl | hmem
      · rw [hs] at habort; exact Fixed.noConfusion habort
      · exact ⟨s, hmem, habort⟩

/-- The story loop, when it does not return the error, appends the kept stories in order. -/
theorem fixLoop_some (env : Env) (f : Feed) (fk : String) (base : Option URL)
    (ss : List Story) :
    ∀ nss out : List Story, fixLoop env f fk base ss nss = some out →
      out = nss ++ ss.filterMap (fixKept env f fk base) ∧
      ∀ s ∈ ss, fixStory env f fk base s ≠ Fixed.abort := by
  induction ss with
  | nil =>
    intro nss out h
    simp [fixLoop] at h
    simp [h]
  | cons a rest ih =>
    intro nss out h
    unfold fixLoop at h
    split at h
    · exact Option.noConfusion h
    · rename_i hs
      have := ih nss out h
      refine ⟨?_, ?_⟩
      · rw [this.1, List.filterMap_cons]
        simp [fixKept, hs]
      · intro s hmem
        rcases List.mem_cons.1 hmem with rfl | hmem
        · rw [hs]; exact fun hc => Fixed.noConfusion hc
        · exact this.2 s hmem
    · rename_i t hs
      have := ih (nss ++ [t]) out h
      refine ⟨?_, ?_⟩
      · rw [this.1, List.filterMap_cons]
        simp [fixKept, hs]
      · intro s hmem
        rcases List.mem_cons.1 hmem with rfl | hmem
        · rw [hs]; exact fun hc => Fixed.noConfusion hc
        · exact this.2 s hmem

/-- The stories that a `filterMap` keeps: a sublist of the input, matched in order with the
output. -/
theorem filterMap_kept {α β : Type} (g : α → Option β) (l : List α) :
    ∃ kept : List α, kept.Sublist l ∧
      List.Forall₂ (fun a b => g a = some b) kept (l.filterMap g) := by
  induction l with
  | nil => exact ⟨[], List.Sublist.slnil, List.Forall₂.nil⟩
  | cons a rest ih =>
    rcases ih with ⟨kept, hsub, hall⟩
    cases hg : g a with
    | none =>
      refine ⟨kept, List.Sublist.cons a hsub, ?_⟩
      rw [List.filterMap_cons_none hg]
      exact hall
    | some b =>
      refine ⟨a :: kept, List.Sublist.cons₂ a hsub, ?_⟩
      rw [List.filterMap_cons_some hg]
      exact List.Forall₂.cons hg hall

/-- The stories of a successful `parseFix` are the kept stories of the loop body, in order. -/
theorem parseFix_stories (env : Env) (now : Int) (f : Feed) (ss : List Story)
    (hok : (parseFix env now f ss).err = none) :
    (parseFix env now f ss).stories =
      ss.filterMap (fixKept env (fixFeed env now f) (env.feedKey f.Url)
        (env.urlParse (fixFeed env now f).Link)) ∧
    (parseFix env now f ss).feed = some (fixFeed env now f) := by
  unfold parseFix at hok ⊢
  simp only at hok ⊢
  split at hok
  · simp at hok
  · rename_i nss hloop
    have := (fixLoop_some env _ _ _ ss [] nss hloop).1
    simp [this]

/-- C5: when `parseFix` succeeds, the returned stories come, in order, from a sublist `kept`
of the draft stories, and each returned story has as `Id` the draft `Id` when that is
non-empty, otherwise the whitespace-trimmed draft `Link` when that is non-empty, otherwise the
draft `Title` (the title before tag-stripping). -/
theorem parseFix_story_id (env : Env) (now : Int) (f : Feed) (ss : List Story)
    (hok : (parseFix env now f ss).err = none) :
    ∃ kept : List Story, kept.Sublist ss ∧
      List.Forall₂
        (fun s t => t.Id =
          if s.Id ≠ "" then s.Id
          else if TrimSpace s.Link ≠ "" then TrimSpace s.Link else s.Title)
        kept (parseFix env now f ss).stories := by
  rw [(parseFix_stories env now f ss hok).1]
  rcases filterMap_kept (fixKept env (fixFeed env now f) (env.feedKey f.Url)
    (env.urlParse (fixFeed env now f).Link)) ss with ⟨kept, hsub, hall⟩
  refine ⟨kept, hsub, hall.imp ?_⟩
  intro s t hk
  unfold fixKept at hk
  split at hk
  · rename_i u hu
    injection hk with hk
    subst hk
    exact fixStory_keep_Id env _ _ _ s u hu
  · exact Option.noConfusion hk

/-- The result of `parseFix` when some draft story is unidentifiable. -/
theorem parseFix_abort (env : Env) (now : Int) (f : Feed) (ss : List Story)
    (h : ∃ s ∈ ss, s.Id = "" ∧ TrimSpace s.Link = "" ∧ s.Title = "") :
    parseFix env now f ss =
      { feed := none, stories := [], err := some "Bad item data in feed" } := by
  rcases h with ⟨s, hmem, hs⟩
  have hloop := fixLoop_abort env (fixFeed env now f) (env.feedKey f.Url)
    (env.urlParse (fixFeed env now f).Link) ss []
    ⟨s, hmem, (fixStory_abort_iff env _ _ _ s).2 hs⟩
  unfold parseFix
  simp only [hloop]

/-- C6: when the draft list contains, at any position, a story with empty `Id`, empty `Link`
after trimming and empty `Title`, `parseFix` returns the error `Bad item data in feed` with
no feed and no stories, whatever the other stories are. -/
theorem parseFix_unidentifiable (env : Env) (now : Int) (f : Feed) (ss : List Story)
    (h : ∃ s ∈ ss, s.Id = "" ∧ TrimSpace s.Link = "" ∧ s.Title = "") :
    (parseFix env now f ss).feed = none ∧ (parseFix env now f ss).stories = [] ∧
    (parseFix env now f ss).err = some "Bad item data in feed" := by
  rw [parseFix_abort env now f ss h]
  exact ⟨rfl, rfl, rfl⟩

set_option maxRecDepth 100000 in
theorem parseFix_story_id_witness :
    (parseFix (sampleEnv sampleRss) 63500000000000000000 (Feed.new "http://example.org/feed")
      [{ Story.zero with Title := "Example" }]).err = none ∧
    (parseFix (sampleEnv sampleRss) 63500000000000000000 (Feed.new "http://example.org/feed")
      [{ Story.zero with Title := "Example" }]).stories.map (fun s => s.Id) = ["Example"] ∧
    ∃ kept : List Story, kept.Sublist [{ Story.zero with Title := "Example" }] ∧
      List.Forall₂
        (fun s t => t.Id =
          if s.Id ≠ "" then s.Id
          else if TrimSpace s.Link ≠ "" then TrimSpace s.Link else s.Title)
        kept
        (parseFix (sampleEnv sampleRss) 63500000000000000000
          (Feed.new "http://example.org/feed") [{ Story.zero with Title := "Example" }]).stories :=
  ⟨by decide, by decide,
    parseFix_story_id (sampleEnv sampleRss) 63500000000000000000
      (Feed.new "http://example.org/feed") [{ Story.zero with Title := "Example" }] (by decide)⟩

set_option maxRecDepth 100000 in
theorem parseFix_unidentifiable_witness :
    (∃ s ∈ sampleDrafts, s.Id = "" ∧ TrimSpace s.Link = "" ∧ s.Title = "") ∧
    ((parseFix (sampleEnv sampleRss) 63500000000000000000 (Feed.new "http://example.org/feed")
        sampleDrafts).feed = none ∧
      (parseFix (sampleEnv sampleRss) 63500000000000000000 (Feed.new "http://example.org/feed")
        sampleDrafts).stories = [] ∧
      (parseFix (sampleEnv sampleRss) 63500000000000000000 (Feed.new "http://example.org/feed")
        sampleDrafts).err = some "Bad item data in feed") :=
  ⟨⟨{ Story.zero with Link := " \t" }, by decide, by decide, by decide, by decide⟩,
    parseFix_unidentifiable (sampleEnv sampleRss) 63500000000000000000
      (Feed.new "http://example.org/feed") sampleDrafts
      ⟨{ Story.zero with Link := " \t" }, by decide, by decide, by decide, by decide⟩⟩

/-! ## Theorems: decoding -/

theorem withDate_fst {α : Type} (env : Env) (f : Feed) (ds : List String) (set : α → Int → α)
    (x : α) (w : World) :
    (withDate env f ds set x w).1 = x ∨ ∃ t, (withDate env f ds set x w).1 = set x t := by
  unfold withDate
  simp only
  split
  · exact Or.inr ⟨_, rfl⟩
  · exact Or.inl rfl

/-- What a story loop of `ParseFeed` returns: the stories so far followed by one story per
item, in order, each with every property that the loop body gives its story. -/
theorem storyLoop_forall2 {ι : Type} (body : ι → World → Story × World)
    (R : ι → Story → Prop) (hR : ∀ i w, R i (body i w).1) (items : List ι) :
    ∀ (s : List Story) (w : World),
      ∃ l, (storyLoop body items s w).1 = s ++ l ∧ List.Forall₂ R items l := by
  induction items with
  | nil => intro s w; exact ⟨[], by simp [storyLoop], List.Forall₂.nil⟩
  | cons a rest ih =>
    intro s w
    rcases ih (s ++ [(body a w).1]) (body a w).2 with ⟨l, hl, hall⟩
    refine ⟨(body a w).1 :: l, ?_, List.Forall₂.cons (hR a w) hall⟩
    unfold storyLoop
    simp only [hl, List.append_assoc, List.singleton_append]

theorem withDate_proj {α β : Type} (env : Env) (f : Feed) (ds : List String)
    (set : α → Int → α) (x : α) (w : World) (p : α → β) (hp : ∀ y t, p (set y t) = p y) :
    p (withDate env f ds set x w).1 = p x := by
  rcases withDate_fst env f ds set x w with h | ⟨t, h⟩
  · rw [h]
  · rw [h, hp]

/-- The draft story of an RSS item: its title is the item's title, also when that is empty,
and its content is computed from the item after the title statement. -/
theorem rssStory_fields (env : Env) (f : Feed) (i : rss.Item) (w : World) :
    (rssStory env f i w).1.Title = i.Title ∧
    (rssStory env f i w).1.content = rssContent (rssItemTitled i) := by
  have htitle : rssTitle i = i.Title := by
    unfold rssTitle
    split_ifs with h
    · rfl
    · exact (not_not.1 h).symm
  have key : ∀ p : Story → String,
      (∀ (y : Story) (t : Int), p { y with Published := t, Updated := t } = p y) →
      p (rssStory env f i w).1 = p (rssFields i) := by
    intro p hp
    unfold rssStory
    exact withDate_proj env f _ _ (rssFields i) w p hp
  have h1 := key (fun s => s.Title) (fun _ _ => rfl)
  have h2 := key (fun s => s.content) (fun _ _ => rfl)
  simp only at h1 h2
  rw [h1, h2]
  unfold rssFields
  simp only
  constructor
  · split <;> exact htitle
  · split <;> rfl

/-- The content of a description-only RSS item is its description. -/
theorem rssContent_description_only (i : rss.Item) (hc : i.Content = "") (ht : i.Title = "")
    (hd : i.Description ≠ "") : rssContent (rssItemTitled i) = i.Description := by
  simp [rssContent, rssItemTitled, hc, ht, hd]

/-- C8: when the Atom decoder fails and the RSS decoder succeeds, `ParseFeed` returns what
`parseFix` returns on the draft feed and the draft stories of `rssDraft`, one story per item
and in the order of the items, and the draft story of every item with empty content, empty
title and non-empty description has that description as its content, the text handed to the
sanitizer. -/
theorem ParseFeed_rss_description_content (env : Env) (now : Int) (u : String) (b : List Nat)
    (w : World) (e : String) (r : rss.Rss)
    (hatom : env.decodeAtom b = .error e) (hrss : env.decodeRss b = .ok r) :
    (ParseFeed env now u b w).1
      = parseFix env now (rssDraft env u r w).1 (rssDraft env u r w).2.1 ∧
    List.Forall₂
      (fun (i : rss.Item) (st : Story) =>
        i.Content = "" → i.Title = "" → i.Description ≠ "" → st.content = i.Description)
      r.Items (rssDraft env u r w).2.1 := by
  refine ⟨?_, ?_⟩
  · unfold ParseFeed
    simp only [hatom, hrss]
  · unfold rssDraft
    simp only
    rcases storyLoop_forall2
        (rssStory env (withDate env { Feed.new u with Title := r.Title, Link := r.Link }
          [r.LastBuildDate, r.PubDate] (fun (f : Feed) t => { f with Updated := t })
          { Feed.new u with Title := r.Title, Link := r.Link } w).1)
        (fun (i : rss.Item) (st : Story) =>
          i.Content = "" → i.Title = "" → i.Description ≠ "" → st.content = i.Description)
        (fun i w hc ht hd => by
          rw [(rssStory_fields env _ i w).2, rssContent_description_only i hc ht hd])
        r.Items [] (withDate env { Feed.new u with Title := r.Title, Link := r.Link }
          [r.LastBuildDate, r.PubDate] (fun (f : Feed) t => { f with Updated := t })
          { Feed.new u with Title := r.Title, Link := r.Link } w).2 with ⟨l, hl, hall⟩
    rw [hl]
    exact hall

set_option maxRecDepth 100000 in
theorem ParseFeed_rss_description_content_witness :
    (sampleEnv sampleRss).decodeAtom [60, 114, 115, 115, 62] = .error "not an atom feed" ∧
    (sampleEnv sampleRss).decodeRss [60, 114, 115, 115, 62] = .ok sampleRss ∧
    (rssDraft (sampleEnv sampleRss) "http://example.org/feed" sampleRss sampleWorld).2.1.map
      (fun st => st.content) = ["hello"] ∧
    ((ParseFeed (sampleEnv sampleRss) 63500000000000000000 "http://example.org/feed"
        [60, 114, 115, 115, 62] sampleWorld).1
        = parseFix (sampleEnv sampleRss) 63500000000000000000
            (rssDraft (sampleEnv sampleRss) "http://example.org/feed" sampleRss sampleWorld).1
            (rssDraft (sampleEnv sampleRss) "http://example.org/feed" sampleRss
              sampleWorld).2.1 ∧
      List.Forall₂
        (fun (i : rss.Item) (st : Story) =>
          i.Content = "" → i.Title = "" → i.Description ≠ "" → st.content = i.Description)
        sampleRss.Items
        (rssDraft (sampleEnv sampleRss) "http://example.org/feed" sampleRss sampleWorld).2.1) :=
  ⟨rfl, rfl, by decide,
    ParseFeed_rss_description_content (sampleEnv sampleRss) 63500000000000000000
      "http://example.org/feed" [60, 114, 115, 115, 62] sampleWorld "not an atom feed" sampleRss
      rfl rfl⟩

/-- C7: on the RSS document with one item that has the description `hello` and no title,
`ParseFeed` succeeds and returns one story whose `Title` is empty, not `hello`, while its
content is `hello`: the title statement of the item loop assigns the description to the loop
variable `i.Title`, never to `st.Title`. -/
theorem ParseFeed_rss_description_only_title :
    (ParseFeed (sampleEnv sampleRss) 63500000000000000000 "http://example.org/feed"
      [60, 114, 115, 115, 62] sampleWorld).1.err = none ∧
    (ParseFeed (sampleEnv sampleRss) 63500000000000000000 "http://example.org/feed"
      [60, 114, 115, 115, 62] sampleWorld).1.stories.map (fun s => (s.Title, s.content))
      = [("", "hello")] ∧
    sampleRss.Items.map (fun i => (i.Title, i.Description)) = [("", "hello")] := by
  set_option maxRecDepth 100000 in decide

/-! ## Theorems: date resolution -/

theorem parseFormats_none (env : Env) (d : String) (fs : List String)
    (h : ∀ f ∈ fs, env.timeParse f d = none) : parseFormats env d fs = none := by
  induction fs with
  | nil => rfl
  | cons a rest ih =>
    unfold parseFormats
    rw [h a (List.mem_cons_self a rest)]
    exact ih (fun f hf => h f (List.mem_cons_of_mem a hf))

/-- C9: `parseDate` with the single candidate `d`, non-blank after trimming and parsed by no
pattern of `dateFormats`, returns the zero time with the error `could not parse date: d`,
draws once from the random source and appends exactly one `DateFormat` record to the writes,
whose `Id` lies in `[0, dateFormatCount) = [0, 500)`, whose `Feed` is the feed's `Url` and
whose `Value` is the trimmed candidate. -/
theorem parseDate_unparsable (env : Env) (feed : Feed) (d : String) (w : World)
    (hblank : TrimSpace d ≠ "")
    (hno : ∀ f ∈ dateFormats, env.timeParse f (TrimSpace d) = none) :
    (parseDate env feed [d] w).1 = (0, some ("could not parse date: " ++ d)) ∧
    (parseDate env feed [d] w).2.drawn = w.drawn + 1 ∧
    ∃ id : Int,
      (parseDate env feed [d] w).2.puts
        = w.puts ++ [{ Id := id, Feed := feed.Url, Value := TrimSpace d }] ∧
      0 ≤ id ∧ id < dateFormatCount ∧ dateFormatCount = 500 := by
  have hp := parseFormats_none env (TrimSpace d) dateFormats hno
  have hrun : parseDate env feed [d] w =
      ((0, some ("could not parse date: " ++ ", ".intercalate [d])),
        { w with drawn := w.drawn + 1,
                 puts := w.puts ++ [{ Id := ((w.rand w.drawn % dateFormatCount : Nat) : Int),
                                      Feed := feed.Url, Value := TrimSpace d }] }) := by
    unfold parseDate
    unfold parseDateLoop
    simp only [hblank, if_false, hp]
    unfold parseDateLoop
    rfl
  have hjoin : ", ".intercalate [d] = d := by
    simp [String.intercalate, String.intercalate.go]
  rw [hrun, hjoin]
  refine ⟨rfl, rfl, ((w.rand w.drawn % dateFormatCount : Nat) : Int), rfl, ?_, ?_, rfl⟩
  · exact Int.natCast_nonneg _
  · have : w.rand w.drawn % dateFormatCount < dateFormatCount :=
      Nat.mod_lt _ (by decide)
    exact_mod_cast this

set_option maxRecDepth 100000 in
theorem parseDate_unparsable_witness :
    TrimSpace " yesterday " ≠ "" ∧
    (∀ f ∈ dateFormats, (sampleEnv sampleRss).timeParse f (TrimSpace " yesterday ") = none) ∧
    (parseDate (sampleEnv sampleRss) sampleFeed [" yesterday "] sampleWorld).2.puts
      = [{ Id := 234, Feed := "http://example.org/feed", Value := "yesterday" }] ∧
    ((parseDate (sampleEnv sampleRss) sampleFeed [" yesterday "] sampleWorld).1
        = (0, some ("could not parse date: " ++ " yesterday ")) ∧
      (parseDate (sampleEnv sampleRss) sampleFeed [" yesterday "] sampleWorld).2.drawn
        = sampleWorld.drawn + 1 ∧
      ∃ id : Int,
        (parseDate (sampleEnv sampleRss) sampleFeed [" yesterday "] sampleWorld).2.puts
          = sampleWorld.puts ++
            [{ Id := id, Feed := sampleFeed.Url, Value := TrimSpace " yesterday " }] ∧
        0 ≤ id ∧ id < dateFormatCount ∧ dateFormatCount = 500) :=
  ⟨by decide, by decide, by decide,
    parseDate_unparsable (sampleEnv sampleRss) sampleFeed " yesterday " sampleWorld
      (by decide) (by decide)⟩

/-! ## Theorems: dependence on the clock -/

theorem loadImage_clock (env : Env) (f : Feed) (c : Int) :
    loadImage env { f with Checked := c } = loadImage env f := rfl

theorem fixFeed_clock (env : Env) (now : Int) (f : Feed) :
    fixFeed env now f = { fixFeed env 0 f with Checked := now } := by
  unfold fixFeed
  simp only [loadImage_clock]
  split
  · rfl
  · split <;> rfl

theorem fixId_setClock (c p d : Int) (s : Story) :
    fixId (setClock c p d s) = (fixId s).map (setClock c p d) := by
  unfold fixId setClock
  simp only
  split_ifs <;> rfl

theorem linkFromId_setClock (env : Env) (c p d : Int) (s : Story) :
    linkFromId env (setClock c p d s) = setClock c p d (linkFromId env s) := by
  unfold linkFromId setClock
  simp only
  split_ifs
  · split <;> rfl
  · rfl

theorem linkResolve_setClock (env : Env) (base : Option URL) (c p d : Int) (s : Story) :
    linkResolve env base (setClock c p d s) = setClock c p d (linkResolve env base s) := by
  unfold linkResolve setClock
  simp only
  split
  · rfl
  · split_ifs
    · split <;> rfl
    · rfl

theorem fixContent_setClock (env : Env) (c p d : Int) (s : Story) :
    fixContent env (setClock c p d s) = setClock c p d (fixContent env s) := by
  unfold fixContent setClock
  simp only
  split <;> rfl

/-- The loop body from the `Id` assignment on neither reads nor writes the three clock
fields. -/
theorem fixTail_setClock (env : Env) (base : Option URL) (c p d : Int) (s : Story) :
    fixTail env base (setClock c p d s) = Fixed.map (setClock c p d) (fixTail env base s) := by
  unfold fixTail
  rw [fixId_setClock]
  cases fixId s with
  | none => rfl
  | some t =>
    simp only [Option.map_some', fixLink, linkFromId_setClock, linkResolve_setClock]
    have hP : (setClock c p d (linkResolve env base (linkFromId env t))).Parent
        = (linkResolve env base (linkFromId env t)).Parent := rfl
    have hI : (setClock c p d (linkResolve env base (linkFromId env t))).Id
        = (linkResolve env base (linkFromId env t)).Id := rfl
    rw [hP, hI, fixContent_setClock]
    split_ifs <;> rfl

theorem fixStory_eq_fixTail (env : Env) (f : Feed) (fk : String) (base : Option URL)
    (s : Story) :
    fixStory env f fk base s =
      fixTail env base
        (fixDates f { s with Parent := fk, Created := f.Checked, Link := TrimSpace s.Link }) :=
  rfl

/-- The timestamps after `fixDates`, for two clock readings. -/
theorem fixDates_clock (f1 f2 : Feed) (s1 s2 : Story) (h : eraseClock s1 = eraseClock s2)
    (hp : s1.Published = s2.Published) :
    eraseClock (fixDates f1 s1) = eraseClock (fixDates f2 s2) ∧
    (((fixDates f1 s1).Published = (fixDates f2 s2).Published ∧
        (fixDates f1 s1).Date = (fixDates f2 s2).Date) ∨
      (fixDates f1 s1).Published = f1.Checked ∨ (fixDates f2 s2).Published = f2.Checked) := by
  have hu : s1.Updated = s2.Updated := by
    have h' := congrArg (fun s : Story => s.Updated) h
    exact h'
  have he1 : eraseClock (fixDates f1 s1) = eraseClock s1 := by
    unfold fixDates eraseClock
    simp only
    split_ifs <;> rfl
  have he2 : eraseClock (fixDates f2 s2) = eraseClock s2 := by
    unfold fixDates eraseClock
    simp only
    split_ifs <;> rfl
  refine ⟨by rw [he1, he2, h], ?_⟩
  unfold fixDates IsZero Before
  simp only [hu, hp]
  split_ifs <;> simp_all

/-- The loop body at two clock readings: the story is dropped in both runs or kept in both,
and the two kept stories differ at most in the clock fields. -/
theorem fixKept_clock (env : Env) (f1 f2 : Feed) (fk : String) (base : Option URL)
    (s : Story) :
    (fixKept env f1 fk base s = none ∧ fixKept env f2 fk base s = none) ∨
    ∃ a b, fixKept env f1 fk base s = some a ∧ fixKept env f2 fk base s = some b ∧
      eraseClock a = eraseClock b ∧
      ((a.Published = b.Published ∧ a.Date = b.Date) ∨
        a.Published = f1.Checked ∨ b.Published = f2.Checked) := by
  have hd := fixDates_clock f1 f2
    { s with Parent := fk, Created := f1.Checked, Link := TrimSpace s.Link }
    { s with Parent := fk, Created := f2.Checked, Link := TrimSpace s.Link } rfl rfl
  generalize hd1 : fixDates f1
    { s with Parent := fk, Created := f1.Checked, Link := TrimSpace s.Link } = d1 at hd
  generalize hd2 : fixDates f2
    { s with Parent := fk, Created := f2.Checked, Link := TrimSpace s.Link } = d2 at hd
  have h1 : fixStory env f1 fk base s
      = Fixed.map (setClock d1.Created d1.Published d1.Date) (fixTail env base (eraseClock d1)) := by
    rw [fixStory_eq_fixTail, hd1, ← fixTail_setClock]
    rfl
  have h2 : fixStory env f2 fk base s
      = Fixed.map (setClock d2.Created d2.Published d2.Date) (fixTail env base (eraseClock d1)) := by
    rw [fixStory_eq_fixTail, hd2, hd.1, ← fixTail_setClock]
    rfl
  unfold fixKept
  rw [h1, h2]
  cases fixTail env base (eraseClock d1) with
  | abort => exact Or.inl ⟨rfl, rfl⟩
  | skip => exact Or.inl ⟨rfl, rfl⟩
  | keep t => exact Or.inr ⟨_, _, rfl, rfl, rfl, hd.2⟩

theorem filterMap_forall2 {α β : Type} (R : β → β → Prop) (g1 g2 : α → Option β)
    (h : ∀ a, (g1 a = none ∧ g2 a = none) ∨ ∃ b1 b2, g1 a = some b1 ∧ g2 a = some b2 ∧ R b1 b2)
    (l : List α) : List.Forall₂ R (l.filterMap g1) (l.filterMap g2) := by
  induction l with
  | nil => exact List.Forall₂.nil
  | cons a rest ih =>
    rcases h a with ⟨h1, h2⟩ | ⟨b1, b2, h1, h2, hr⟩
    · rw [List.filterMap_cons_none h1, List.filterMap_cons_none h2]
      exact ih
    · rw [List.filterMap_cons_some h1, List.filterMap_cons_some h2]
      exact List.Forall₂.cons hr ih

/-- The story loop runs to its end when no story makes the body return the error. -/
theorem fixLoop_total (env : Env) (f : Feed) (fk : String) (base : Option URL)
    (ss : List Story) :
    ∀ nss : List Story, (∀ s ∈ ss, fixStory env f fk base s ≠ Fixed.abort) →
      fixLoop env f fk base ss nss = some (nss ++ ss.filterMap (fixKept env f fk base)) := by
  induction ss with
  | nil => intro nss _; simp [fixLoop]
  | cons a rest ih =>
    intro nss h
    have ha := h a (List.mem_cons_self a rest)
    have hrest : ∀ s ∈ rest, fixStory env f fk base s ≠ Fixed.abort :=
      fun s hs => h s (List.mem_cons_of_mem a hs)
    unfold fixLoop
    split
    · rename_i hs
      exact absurd hs ha
    · rename_i hs
      rw [ih nss hrest, List.filterMap_cons]
      simp [fixKept, hs]
    · rename_i t hs
      rw [ih (nss ++ [t]) hrest, List.filterMap_cons]
      simp [fixKept, hs]

/-- The result of `parseFix` when every draft story is identifiable. -/
theorem parseFix_ok (env : Env) (now : Int) (f : Feed) (ss : List Story)
    (h : ¬ ∃ s ∈ ss, s.Id = "" ∧ TrimSpace s.Link = "" ∧ s.Title = "") :
    parseFix env now f ss =
      { feed := some (fixFeed env now f)
        stories := ss.filterMap (fixKept env (fixFeed env now f) (env.feedKey f.Url)
          (env.urlParse (fixFeed env now f).Link))
        err := none } := by
  have hloop := fixLoop_total env (fixFeed env now f) (env.feedKey f.Url)
    (env.urlParse (fixFeed env now f).Link) ss []
    (fun s hs hc => h ⟨s, hs, (fixStory_abort_iff env _ _ _ s).1 hc⟩)
  unfold parseFix
  simp only [hloop, List.nil_append]

/-- C10, as stated, fails: the sample RSS document has one item without a date, and the runs
at the clock readings 63500000000 s and 63500000001 s return stories that differ in
`Published` and in `Date`, so the results are not equal in every field except `Feed.Checked`
and `Story.Created`. -/
theorem ParseFeed_clock_counterexample :
    ¬ agreeExceptCheckedCreated
      (ParseFeed (sampleEnv sampleRss) 63500000000000000000 "http://example.org/feed"
        [60, 114, 115, 115, 62] sampleWorld).1
      (ParseFeed (sampleEnv sampleRss) 63500000001000000000 "http://example.org/feed"
        [60, 114, 115, 115, 62] sampleWorld).1 ∧
    (ParseFeed (sampleEnv sampleRss) 63500000000000000000 "http://example.org/feed"
        [60, 114, 115, 115, 62] sampleWorld).1.stories.map (fun s => (s.Published, s.Date))
      = [(63500000000000000000, 1364403200)] ∧
    (ParseFeed (sampleEnv sampleRss) 63500000001000000000 "http://example.org/feed"
        [60, 114, 115, 115, 62] sampleWorld).1.stories.map (fun s => (s.Published, s.Date))
      = [(63500000001000000000, 1364403201)] := by
  set_option maxRecDepth 100000 in decide

/-! ## Theorems: decoding failure -/

/-- C11, amended: when the Atom, RSS and RDF decoders all fail, `ParseFeed` returns no feed
and no stories together with the single error `Could not parse feed data`, the same text for
all failure messages of the three decoders, and draws nothing and writes nothing. -/
theorem ParseFeed_all_decoders_fail (env : Env) (now : Int) (u : String) (b : List Nat)
    (w : World) (e1 e2 e3 : String)
    (hatom : env.decodeAtom b = .error e1) (hrss : env.decodeRss b = .error e2)
    (hrdf : env.decodeRdf b = .error e3) :
    (ParseFeed env now u b w).1.feed = none ∧ (ParseFeed env now u b w).1.stories = [] ∧
    (ParseFeed env now u b w).1.err = some "Could not parse feed data" ∧
    (ParseFeed env now u b w).2.drawn = w.drawn ∧ (ParseFeed env now u b w).2.puts = w.puts := by
  unfold ParseFeed
  simp [hatom, hrss, hrdf]

set_option maxRecDepth 100000 in
theorem ParseFeed_all_decoders_fail_witness :
    brokenEnv.decodeAtom [60, 104, 116, 109, 108, 62]
      = .error "expected element type <feed> but have <html>" ∧
    brokenEnv.decodeRss [60, 104, 116, 109, 108, 62]
      = .error "expected element type <rss> but have <html>" ∧
    brokenEnv.decodeRdf [60, 104, 116, 109, 108, 62]
      = .error "expected element type <RDF> but have <html>" ∧
    ((ParseFeed brokenEnv 63500000000000000000 "http://example.org/feed"
        [60, 104, 116, 109, 108, 62] sampleWorld).1.feed = none ∧
      (ParseFeed brokenEnv 63500000000000000000 "http://example.org/feed"
        [60, 104, 116, 109, 108, 62] sampleWorld).1.stories = [] ∧
      (ParseFeed brokenEnv 63500000000000000000 "http://example.org/feed"
        [60, 104, 116, 109, 108, 62] sampleWorld).1.err = some "Could not parse feed data" ∧
      (ParseFeed brokenEnv 63500000000000000000 "http://example.org/feed"
        [60, 104, 116, 109, 108, 62] sampleWorld).2.drawn = sampleWorld.drawn ∧
      (ParseFeed brokenEnv 63500000000000000000 "http://example.org/feed"
        [60, 104, 116, 109, 108, 62] sampleWorld).2.puts = sampleWorld.puts) :=
  ⟨rfl, rfl, rfl,
    ParseFeed_all_decoders_fail brokenEnv 63500000000000000000 "http://example.org/feed"
      [60, 104, 116, 109, 108, 62] sampleWorld _ _ _ rfl rfl rfl⟩

/-- C11, as stated, fails: on collaborators whose three decoders fail with three different
messages, the error that `ParseFeed` returns is `Could not parse feed data`, and none of the
three messages occurs in it. -/
theorem ParseFeed_all_decoders_fail_counterexample :
    brokenEnv.decodeAtom [60, 104, 116, 109, 108, 62]
      = .error "expected element type <feed> but have <html>" ∧
    brokenEnv.decodeRss [60, 104, 116, 109, 108, 62]
      = .error "expected element type <rss> but have <html>" ∧
    brokenEnv.decodeRdf [60, 104, 116, 109, 108, 62]
      = .error "expected element type <RDF> but have <html>" ∧
    (ParseFeed brokenEnv 63500000000000000000 "http://example.org/feed"
      [60, 104, 116, 109, 108, 62] sampleWorld).1.err = some "Could not parse feed data" ∧
    ¬ carriesMessage "Could not parse feed data"
        "expected element type <feed> but have <html>" ∧
    ¬ carriesMessage "Could not parse feed data"
        "expected element type <rss> but have <html>" ∧
    ¬ carriesMessage "Could not parse feed data"
        "expected element type <RDF> but have <html>" := by
  refine ⟨rfl, rfl, rfl, rfl, ?_, ?_, ?_⟩ <;> decide

/-! ## Theorems: the stories that `parseFix` returns -/

theorem fixDates_spec (f : Feed) (s : Story) :
    (fixDates f s).Updated = s.Updated ∧
    (fixDates f s).Published =
      (if (if s.Published = 0 then s.Updated else s.Published) ≠ 0 ∧
          (if s.Published = 0 then s.Updated else s.Published) ≤ f.Checked
        then (if s.Published = 0 then s.Updated else s.Published) else f.Checked) ∧
    (fixDates f s).Date =
      (if s.Updated ≠ 0 then Unix s.Updated else Unix (fixDates f s).Published) := by
  unfold fixDates IsZero Before
  simp only
  split_ifs <;> simp_all <;> omega

theorem fixTail_keep_Updated (env : Env) (base : Option URL) (s t : Story)
    (h : fixTail env base s = Fixed.keep t) : t.Updated = s.Updated := by
  unfold fixTail at h
  split at h
  · exact Fixed.noConfusion h
  · rename_i u hu
    have h1 : u.Updated = s.Updated := by
      unfold fixId at hu
      split_ifs at hu <;> simp at hu <;> subst hu <;> rfl
    have h2 : (linkFromId env u).Updated = u.Updated := by
      unfold linkFromId
      (repeat' split) <;> rfl
    have h3 : (linkResolve env base (linkFromId env u)).Updated
        = (linkFromId env u).Updated := by
      unfold linkResolve
      (repeat' split) <;> rfl
    have h4 : ∀ x : Story, (fixContent env x).Updated = x.Updated := by
      intro x
      unfold fixContent
      split <;> rfl
    simp only at h
    split_ifs at h
    injection h with h
    rw [← h, h4, fixLink, h3, h2, h1]

/-- The story that the loop body appends for the draft `s`: its `Id`, its timestamps and the
length of its key. -/
theorem fixKept_spec (env : Env) (f : Feed) (fk : String) (base : Option URL) (s t : Story)
    (h : fixKept env f fk base s = some t) :
    t.Id = (if s.Id ≠ "" then s.Id
      else if TrimSpace s.Link ≠ "" then TrimSpace s.Link else s.Title) ∧
    t.Id ≠ "" ∧
    t.Updated = s.Updated ∧
    t.Published =
      (if (if s.Published = 0 then s.Updated else s.Published) ≠ 0 ∧
          (if s.Published = 0 then s.Updated else s.Published) ≤ f.Checked
        then (if s.Published = 0 then s.Updated else s.Published) else f.Checked) ∧
    t.Date = (if t.Updated ≠ 0 then Unix t.Updated else Unix t.Published) := by
  have hkeep : fixStory env f fk base s = Fixed.keep t := by
    unfold fixKept at h
    split at h
    · rename_i u hu
      injection h with h
      rw [hu, h]
    · exact Option.noConfusion h
  have hid := fixStory_keep_Id env f fk base s t hkeep
  have hnab : ¬ (s.Id = "" ∧ TrimSpace s.Link = "" ∧ s.Title = "") := by
    intro hc
    rw [(fixStory_abort_iff env f fk base s).2 hc] at hkeep
    exact Fixed.noConfusion hkeep
  have hne : t.Id ≠ "" := by
    rw [hid]
    split_ifs with h1 h2
    · exact h1
    · exact h2
    · intro h3
      exact hnab ⟨not_not.1 h1, not_not.1 h2, h3⟩
  generalize hd : fixDates f
    { s with Parent := fk, Created := f.Checked, Link := TrimSpace s.Link } = d at *
  have hspec := fixDates_spec f
    { s with Parent := fk, Created := f.Checked, Link := TrimSpace s.Link }
  rw [hd] at hspec
  simp only at hspec
  have htail : fixTail env base d = Fixed.keep t := by
    rw [← hd, ← fixStory_eq_fixTail]
    exact hkeep
  have hup := fixTail_keep_Updated env base d t htail
  have hclock : fixTail env base d
      = Fixed.map (setClock d.Created d.Published d.Date) (fixTail env base (eraseClock d)) := by
    rw [← fixTail_setClock]
    rfl
  rw [hclock] at htail
  have hpd : t.Published = d.Published ∧ t.Date = d.Date := by
    cases hE : fixTail env base (eraseClock d) with
    | abort => rw [hE] at htail; exact Fixed.noConfusion htail
    | skip => rw [hE] at htail; exact Fixed.noConfusion htail
    | keep a =>
      rw [hE] at htail
      simp only [Fixed.map] at htail
      injection htail with htail
      rw [← htail]
      exact ⟨rfl, rfl⟩
  refine ⟨hid, hne, by rw [hup, hspec.1], by rw [hpd.1, hspec.2.1], ?_⟩
  rw [hpd.2, hspec.2.2, hup, hspec.1, hpd.1]

/-- The loop body appends a story for the draft `s` exactly when `s` is identifiable and its
key is not longer than `keySize`. -/
theorem fixKept_isSome_iff (env : Env) (f : Feed) (fk : String) (base : Option URL)
    (s : Story) (hid : ¬ (s.Id = "" ∧ TrimSpace s.Link = "" ∧ s.Title = "")) :
    (fixKept env f fk base s).isSome = true ↔
      (env.storyKeyString fk
        (if s.Id ≠ "" then s.Id
          else if TrimSpace s.Link ≠ "" then TrimSpace s.Link else s.Title)).utf8ByteSize
        ≤ keySize := by
  have hd := fixDates_fields f
    { s with Parent := fk, Created := f.Checked, Link := TrimSpace s.Link }
  unfold fixKept fixStory
  simp only
  cases hfix : fixId (fixDates f
      { s with Parent := fk, Created := f.Checked, Link := TrimSpace s.Link }) with
  | none =>
    have := (fixId_eq_none _).1 hfix
    simp only [hd.1, hd.2.1, hd.2.2.1] at this
    exact absurd this hid
  | some u =>
    have hu := fixId_some_Id _ u hfix
    simp only [hd.1, hd.2.1, hd.2.2.1, hd.2.2.2] at hu
    simp only [(fixLink_fields env base u).1, (fixLink_fields env base u).2, hu.1, hu.2]
    generalize (if s.Id ≠ "" then s.Id
      else if TrimSpace s.Link ≠ "" then TrimSpace s.Link else s.Title) = fid
    by_cases hk : (env.storyKeyString fk fid).utf8ByteSize > keySize
    · simp only [hk, if_true, Option.isSome_none, Bool.false_eq_true, false_iff, not_le]
    · simp only [hk, if_false, Option.isSome_some, true_iff]
      exact not_lt.1 hk

theorem filterMap_filter_forall2 {α β : Type} (g : α → Option β) (p : α → Bool)
    (l : List α) (h : ∀ a ∈ l, (g a).isSome = p a) :
    List.Forall₂ (fun a b => g a = some b) (l.filter p) (l.filterMap g) := by
  induction l with
  | nil => exact List.Forall₂.nil
  | cons a rest ih =>
    have ha := h a (List.mem_cons_self a rest)
    have hrest := ih (fun x hx => h x (List.mem_cons_of_mem a hx))
    cases hg : g a with
    | none =>
      rw [hg] at ha
      have hp : p a = false := by simpa using ha.symm
      rw [List.filterMap_cons_none hg, List.filter_cons_of_neg (by simp [hp])]
      exact hrest
    | some b =>
      rw [hg] at ha
      have hp : p a = true := by simpa using ha.symm
      rw [List.filterMap_cons_some hg, List.filter_cons_of_pos hp]
      exact List.Forall₂.cons hg hrest

/-- A successful `parseFix` met no unidentifiable story. -/
theorem parseFix_ok_identifiable (env : Env) (now : Int) (f : Feed) (ss : List Story)
    (hok : (parseFix env now f ss).err = none) :
    ¬ ∃ s ∈ ss, s.Id = "" ∧ TrimSpace s.Link = "" ∧ s.Title = "" := by
  intro hbad
  rw [parseFix_abort env now f ss hbad] at hok
  exact Option.noConfusion hok

/-- Every story of a successful `parseFix` is the story that the loop body appends for some
draft. -/
theorem parseFix_mem (env : Env) (now : Int) (f : Feed) (ss : List Story)
    (hok : (parseFix env now f ss).err = none) (t : Story)
    (ht : t ∈ (parseFix env now f ss).stories) :
    ∃ s ∈ ss, fixKept env (fixFeed env now f) (env.feedKey f.Url)
      (env.urlParse (fixFeed env now f).Link) s = some t := by
  rw [(parseFix_stories env now f ss hok).1] at ht
  rcases List.mem_filterMap.1 ht with ⟨s, hs, hk⟩
  exact ⟨s, hs, hk⟩

/-- C12: when `parseFix` succeeds, every story of the returned list has a non-empty `Id`. -/
theorem parseFix_id_nonempty (env : Env) (now : Int) (f : Feed) (ss : List Story)
    (hok : (parseFix env now f ss).err = none) :
    ∀ t ∈ (parseFix env now f ss).stories, t.Id ≠ "" := by
  intro t ht
  rcases parseFix_mem env now f ss hok t ht with ⟨s, _, hk⟩
  exact (fixKept_spec env _ _ _ s t hk).2.1

set_option maxRecDepth 100000 in
theorem parseFix_id_nonempty_witness :
    (parseFix (sampleEnv sampleRss) 63500000000000000000 (Feed.new "http://example.org/feed")
      sampleGoodDrafts).err = none ∧
    (parseFix (sampleEnv sampleRss) 63500000000000000000 (Feed.new "http://example.org/feed")
      sampleGoodDrafts).stories.map (fun t => t.Id) = ["a", "http://example.org/3"] ∧
    ∀ t ∈ (parseFix (sampleEnv sampleRss) 63500000000000000000
      (Feed.new "http://example.org/feed") sampleGoodDrafts).stories, t.Id ≠ "" :=
  ⟨by decide, by decide,
    parseFix_id_nonempty (sampleEnv sampleRss) 63500000000000000000
      (Feed.new "http://example.org/feed") sampleGoodDrafts (by decide)⟩

/-- C13: when `parseFix` succeeds, the returned stories are, in the order of the input, the
stories that the loop body builds from the drafts whose persistence key (the key of the feed
URL and of the story `Id` after the identity fallback) is at most 500 bytes long: the kept
drafts are a sublist of the input, a draft is omitted exactly when its key is longer than 500,
and nothing is reordered or duplicated. -/
theorem parseFix_order (env : Env) (now : Int) (f : Feed) (ss : List Story)
    (hok : (parseFix env now f ss).err = none) :
    (ss.filter (fun s => decide ((env.storyKeyString (env.feedKey f.Url)
        (if s.Id ≠ "" then s.Id
          else if TrimSpace s.Link ≠ "" then TrimSpace s.Link else s.Title)).utf8ByteSize
        ≤ 500))).Sublist ss ∧
    List.Forall₂
      (fun s t =>
        fixKept env (fixFeed env now f) (env.feedKey f.Url)
          (env.urlParse (fixFeed env now f).Link) s = some t ∧
        t.Id = (if s.Id ≠ "" then s.Id
          else if TrimSpace s.Link ≠ "" then TrimSpace s.Link else s.Title))
      (ss.filter (fun s => decide ((env.storyKeyString (env.feedKey f.Url)
        (if s.Id ≠ "" then s.Id
          else if TrimSpace s.Link ≠ "" then TrimSpace s.Link else s.Title)).utf8ByteSize
        ≤ 500)))
      (parseFix env now f ss).stories := by
  refine ⟨List.filter_sublist _, ?_⟩
  rw [(parseFix_stories env now f ss hok).1]
  have hid := parseFix_ok_identifiable env now f ss hok
  have hall := filterMap_filter_forall2
    (fixKept env (fixFeed env now f) (env.feedKey f.Url)
      (env.urlParse (fixFeed env now f).Link))
    (fun s => decide ((env.storyKeyString (env.feedKey f.Url)
        (if s.Id ≠ "" then s.Id
          else if TrimSpace s.Link ≠ "" then TrimSpace s.Link else s.Title)).utf8ByteSize
        ≤ 500))
    ss
    (fun s hs => by
      have h := fixKept_isSome_iff env (fixFeed env now f) (env.feedKey f.Url)
        (env.urlParse (fixFeed env now f).Link) s (fun hc => hid ⟨s, hs, hc⟩)
      unfold keySize at h
      rw [Bool.eq_iff_iff, h, decide_eq_true_iff])
  exact hall.imp (fun s t hk => ⟨hk, (fixKept_spec env _ _ _ s t hk).1⟩)

set_option maxRecDepth 100000 in
theorem parseFix_order_witness :
    (parseFix (sampleEnv sampleRss) 63500000000000000000 (Feed.new "http://example.org/feed")
      sampleGoodDrafts).err = none ∧
    (sampleGoodDrafts.map (fun s => decide (((sampleEnv sampleRss).storyKeyString
        ((sampleEnv sampleRss).feedKey "http://example.org/feed")
        (if s.Id ≠ "" then s.Id
          else if TrimSpace s.Link ≠ "" then TrimSpace s.Link else s.Title)).utf8ByteSize
        ≤ 500))) = [true, false, true] ∧
    (parseFix (sampleEnv sampleRss) 63500000000000000000 (Feed.new "http://example.org/feed")
      sampleGoodDrafts).stories.map (fun t => t.Title) = ["First", "Third"] ∧
    ((sampleGoodDrafts.filter (fun s => decide (((sampleEnv sampleRss).storyKeyString
        ((sampleEnv sampleRss).feedKey (Feed.new "http://example.org/feed").Url)
        (if s.Id ≠ "" then s.Id
          else if TrimSpace s.Link ≠ "" then TrimSpace s.Link else s.Title)).utf8ByteSize
        ≤ 500))).Sublist sampleGoodDrafts ∧
      List.Forall₂
        (fun s t =>
          fixKept (sampleEnv sampleRss)
            (fixFeed (sampleEnv sampleRss) 63500000000000000000
              (Feed.new "http://example.org/feed"))
            ((sampleEnv sampleRss).feedKey (Feed.new "http://example.org/feed").Url)
            ((sampleEnv sampleRss).urlParse
              (fixFeed (sampleEnv sampleRss) 63500000000000000000
                (Feed.new "http://example.org/feed")).Link) s = some t ∧
          t.Id = (if s.Id ≠ "" then s.Id
            else if TrimSpace s.Link ≠ "" then TrimSpace s.Link else s.Title))
        (sampleGoodDrafts.filter (fun s => decide (((sampleEnv sampleRss).storyKeyString
          ((sampleEnv sampleRss).feedKey (Feed.new "http://example.org/feed").Url)
          (if s.Id ≠ "" then s.Id
            else if TrimSpace s.Link ≠ "" then TrimSpace s.Link else s.Title)).utf8ByteSize
          ≤ 500)))
        (parseFix (sampleEnv sampleRss) 63500000000000000000
          (Feed.new "http://example.org/feed") sampleGoodDrafts).stories) :=
  ⟨by decide, by decide, by decide,
    parseFix_order (sampleEnv sampleRss) 63500000000000000000
      (Feed.new "http://example.org/feed") sampleGoodDrafts (by decide)⟩

/-- C17: when `parseFix` succeeds at a clock reading other than the zero instant, the feed's
`Checked` is that reading and the returned stories come, in order, from a sublist `kept` of
the drafts such that each returned story has a `Published` that is set, is not after
`Checked`, and equals the draft `Published` (the draft `Updated` when `Published` was unset)
when that instant is set and not after `Checked`, and `Checked` otherwise. -/
theorem parseFix_published (env : Env) (now : Int) (f : Feed) (ss : List Story)
    (hnow : now ≠ 0) (hok : (parseFix env now f ss).err = none) :
    (∃ g, (parseFix env now f ss).feed = some g ∧ g.Checked = now) ∧
    ∃ kept : List Story, kept.Sublist ss ∧
      List.Forall₂
        (fun s t => t.Published ≠ 0 ∧ t.Published ≤ now ∧
          t.Published =
            (if (if s.Published = 0 then s.Updated else s.Published) ≠ 0 ∧
                (if s.Published = 0 then s.Updated else s.Published) ≤ now
              then (if s.Published = 0 then s.Updated else s.Published) else now))
        kept (parseFix env now f ss).stories := by
  have hc : (fixFeed env now f).Checked = now := by rw [fixFeed_clock env now f]
  refine ⟨⟨fixFeed env now f, (parseFix_stories env now f ss hok).2, hc⟩, ?_⟩
  rw [(parseFix_stories env now f ss hok).1]
  rcases filterMap_kept (fixKept env (fixFeed env now f) (env.feedKey f.Url)
    (env.urlParse (fixFeed env now f).Link)) ss with ⟨kept, hsub, hall⟩
  refine ⟨kept, hsub, hall.imp ?_⟩
  intro s t hk
  have hp := (fixKept_spec env _ _ _ s t hk).2.2.2.1
  rw [hc] at hp
  refine ⟨?_, ?_, hp⟩
  · rw [hp]
    generalize (if s.Published = 0 then s.Updated else s.Published) = p
    split_ifs with h
    · exact h.1
    · exact hnow
  · rw [hp]
    generalize (if s.Published = 0 then s.Updated else s.Published) = p
    split_ifs with h
    · exact h.2
    · exact le_refl now

set_option maxRecDepth 100000 in
theorem parseFix_published_witness :
    (63500000000000000000 : Int) ≠ 0 ∧
    (parseFix (sampleEnv sampleRss) 63500000000000000000 (Feed.new "http://example.org/feed")
      sampleGoodDrafts).err = none ∧
    (parseFix (sampleEnv sampleRss) 63500000000000000000 (Feed.new "http://example.org/feed")
      sampleGoodDrafts).stories.map (fun t => t.Published)
      = [63400000000000000000, 63500000000000000000] ∧
    ((∃ g, (parseFix (sampleEnv sampleRss) 63500000000000000000
        (Feed.new "http://example.org/feed") sampleGoodDrafts).feed = some g ∧
        g.Checked = 63500000000000000000) ∧
      ∃ kept : List Story, kept.Sublist sampleGoodDrafts ∧
        List.Forall₂
          (fun s t => t.Published ≠ 0 ∧ t.Published ≤ 63500000000000000000 ∧
            t.Published =
              (if (if s.Published = 0 then s.Updated else s.Published) ≠ 0 ∧
                  (if s.Published = 0 then s.Updated else s.Published) ≤ 63500000000000000000
                then (if s.Published = 0 then s.Updated else s.Published)
                else 63500000000000000000))
          kept
          (parseFix (sampleEnv sampleRss) 63500000000000000000
            (Feed.new "http://example.org/feed") sampleGoodDrafts).stories) :=
  ⟨by decide, by decide, by decide,
    parseFix_published (sampleEnv sampleRss) 63500000000000000000
      (Feed.new "http://example.org/feed") sampleGoodDrafts (by decide) (by decide)⟩

/-- C18: when `parseFix` succeeds, every returned story has as `Date` the epoch seconds of
its `Updated` when `Updated` is set, and otherwise the epoch seconds of its reconciled
`Published`; the returned stories come, in order, from a sublist of the drafts and keep the
draft `Updated`. -/
theorem parseFix_date (env : Env) (now : Int) (f : Feed) (ss : List Story)
    (hok : (parseFix env now f ss).err = none) :
    (∀ t ∈ (parseFix env now f ss).stories,
      t.Date = if t.Updated ≠ 0 then Unix t.Updated else Unix t.Published) ∧
    ∃ kept : List Story, kept.Sublist ss ∧
      List.Forall₂ (fun s t => t.Updated = s.Updated) kept (parseFix env now f ss).stories := by
  constructor
  · intro t ht
    rcases parseFix_mem env now f ss hok t ht with ⟨s, _, hk⟩
    exact (fixKept_spec env _ _ _ s t hk).2.2.2.2
  · rw [(parseFix_stories env now f ss hok).1]
    rcases filterMap_kept (fixKept env (fixFeed env now f) (env.feedKey f.Url)
      (env.urlParse (fixFeed env now f).Link)) ss with ⟨kept, hsub, hall⟩
    exact ⟨kept, hsub, hall.imp (fun s t hk => (fixKept_spec env _ _ _ s t hk).2.2.1)⟩

set_option maxRecDepth 100000 in
theorem parseFix_date_witness :
    (parseFix (sampleEnv sampleRss) 63500000000000000000 (Feed.new "http://example.org/feed")
      sampleGoodDrafts).err = none ∧
    (parseFix (sampleEnv sampleRss) 63500000000000000000 (Feed.new "http://example.org/feed")
      sampleGoodDrafts).stories.map (fun t => (t.Updated, t.Published, t.Date))
      = [(63400000000000000000, 63400000000000000000, 1264403200),
         (0, 63500000000000000000, 1364403200)] ∧
    ((∀ t ∈ (parseFix (sampleEnv sampleRss) 63500000000000000000
        (Feed.new "http://example.org/feed") sampleGoodDrafts).stories,
        t.Date = if t.Updated ≠ 0 then Unix t.Updated else Unix t.Published) ∧
      ∃ kept : List Story, kept.Sublist sampleGoodDrafts ∧
        List.Forall₂ (fun s t => t.Updated = s.Updated) kept
          (parseFix (sampleEnv sampleRss) 63500000000000000000
            (Feed.new "http://example.org/feed") sampleGoodDrafts).stories) :=
  ⟨by decide, by decide,
    parseFix_date (sampleEnv sampleRss) 63500000000000000000
      (Feed.new "http://example.org/feed") sampleGoodDrafts (by decide)⟩

/-! ## Theorems: poll scheduling without history -/

/-- C14: for a feed with `NotViewed` false and `Date` unset, `scheduleNextUpdate` returns
normally and sets `NextUpdate` to the first clock reading plus `UpdateDefault`, with no
jitter, whatever `Average`, the later clock readings and the random draws are; no other field
changes. -/
theorem scheduleNextUpdate_no_date (cfg : Settings) (now1 now2 now3 : Int) (r1 r2 : Nat)
    (f : Feed) (hdate : f.Date = 0) :
    scheduleNextUpdate cfg false now1 now2 now3 r1 r2 f
      = some { f with NextUpdate := now1 + cfg.UpdateDefault } := by
  simp [scheduleNextUpdate, IsZero, hdate, Add]

set_option maxRecDepth 100000 in
theorem scheduleNextUpdate_no_date_witness :
    (Feed.new "http://example.org/feed").Date = 0 ∧
    scheduleNextUpdate sampleSettings false 63500000000000000000 63500000000000000001
        63500000000000000002 1000000000000007 3 (Feed.new "http://example.org/feed")
      = some { Feed.new "http://example.org/feed" with NextUpdate := 63500003600000000000 } ∧
    scheduleNextUpdate sampleSettings false 63500000000000000000 63500000000000000001
        63500000000000000002 1000000000000007 3 (Feed.new "http://example.org/feed")
      = some { Feed.new "http://example.org/feed" with
        NextUpdate := 63500000000000000000 + sampleSettings.UpdateDefault } :=
  ⟨rfl, by decide,
    scheduleNextUpdate_no_date sampleSettings 63500000000000000000 63500000000000000001
      63500000000000000002 1000000000000007 3 (Feed.new "http://example.org/feed") rfl⟩

/-! ## Theorems: Atom content -/

theorem atomContent_rule (i : atom.Entry) : AtomContentRule i (atomContent i) := by
  unfold AtomContentRule atomContent
  refine ⟨?_, ?_, ?_, ?_, ?_⟩
  · intro c hc hb
    simp [hc, hb]
  · intro c hc hb hx
    simp [hc, hb, hx]
  · intro c hc hb hx
    simp [hc, hb, hx]
  · intro sm hc hs
    simp [hc, hs]
  · intro hc hs
    simp [hc, hs]

theorem atomStory_content (env : Env) (f : Feed) (fb : URL) (i : atom.Entry) (w : World) :
    (atomStory env f fb i w).1.content = atomContent i := rfl

/-- C19, amended: when the Atom decoder succeeds, `ParseFeed` returns what `parseFix` returns
on the draft feed and the draft stories of `atomDraft`, one story per entry and in the order
of the entries, and the content of each draft story is: for an entry with a content element,
its body when non-blank, else its raw inner markup when non-empty, else the empty string,
also when the entry has a summary; for an entry without a content element, the summary body
when there is a summary, else the empty string. -/
theorem ParseFeed_atom_content (env : Env) (now : Int) (u : String) (b : List Nat)
    (w : World) (a : atom.Feed) (hatom : env.decodeAtom b = .ok a) :
    (ParseFeed env now u b w).1
      = parseFix env now (atomDraft env u a w).1 (atomDraft env u a w).2.1 ∧
    List.Forall₂ (fun (i : atom.Entry) (st : Story) => AtomContentRule i st.content)
      a.Entry (atomDraft env u a w).2.1 := by
  refine ⟨?_, ?_⟩
  · unfold ParseFeed
    simp only [hatom]
  · have key : ∀ (f : Feed) (fb : URL) (w1 : World),
        List.Forall₂ (fun (i : atom.Entry) (st : Story) => AtomContentRule i st.content)
          a.Entry (storyLoop (atomStory env f fb) a.Entry [] w1).1 := by
      intro f fb w1
      rcases storyLoop_forall2 (atomStory env f fb)
          (fun (i : atom.Entry) (st : Story) => AtomContentRule i st.content)
          (fun i w => by
            show AtomContentRule i (atomContent i)
            exact atomContent_rule i)
          a.Entry [] w1 with ⟨l, hl, hall⟩
      rw [hl]
      exact hall
    exact key _ _ _

set_option maxRecDepth 100000 in
theorem ParseFeed_atom_content_witness :
    (atomEnv sampleAtom).decodeAtom [60, 102, 101, 101, 100, 62] = .ok sampleAtom ∧
    ((ParseFeed (atomEnv sampleAtom) 63500000000000000000 "http://example.org/feed"
        [60, 102, 101, 101, 100, 62] sampleWorld).1
        = parseFix (atomEnv sampleAtom) 63500000000000000000
            (atomDraft (atomEnv sampleAtom) "http://example.org/feed" sampleAtom sampleWorld).1
            (atomDraft (atomEnv sampleAtom) "http://example.org/feed" sampleAtom
              sampleWorld).2.1 ∧
      List.Forall₂ (fun (i : atom.Entry) (st : Story) => AtomContentRule i st.content)
        sampleAtom.Entry
        (atomDraft (atomEnv sampleAtom) "http://example.org/feed" sampleAtom sampleWorld).2.1) :=
  ⟨rfl,
    ParseFeed_atom_content (atomEnv sampleAtom) 63500000000000000000
      "http://example.org/feed" [60, 102, 101, 101, 100, 62] sampleWorld sampleAtom rfl⟩

/-- C19, as stated, fails: the entry of the sample Atom document has a content element with a
blank body and empty inner markup together with the summary `short text`; the chain of the
claim gives `short text`, the draft story that `ParseFeed` builds has empty content, and so
has the story that `ParseFeed` returns. -/
theorem ParseFeed_atom_content_counterexample :
    sampleAtom.Entry.map specAtomContent = ["short text"] ∧
    (atomDraft (atomEnv sampleAtom) "http://example.org/feed" sampleAtom sampleWorld).2.1.map
      (fun st => st.content) = [""] ∧
    (ParseFeed (atomEnv sampleAtom) 63500000000000000000 "http://example.org/feed"
      [60, 102, 101, 101, 100, 62] sampleWorld).1.stories.map (fun st => st.content) = [""] := by
  set_option maxRecDepth 100000 in decide

/-! ## Theorems: the first date that parses -/

theorem parseFormats_first (env : Env) (d : String) (t : Int) (fmt : String)
    (fpost : List String) (hfmt : env.timeParse fmt d = some t) :
    ∀ fpre : List String, (∀ f ∈ fpre, env.timeParse f d = none) →
      parseFormats env d (fpre ++ fmt :: fpost) = some t := by
  intro fpre
  induction fpre with
  | nil =>
    intro _
    simp only [List.nil_append]
    unfold parseFormats
    rw [hfmt]
  | cons a rest ih =>
    intro h
    simp only [List.cons_append]
    unfold parseFormats
    rw [h a (List.mem_cons_self a rest)]
    exact ih (fun f hf => h f (List.mem_cons_of_mem a hf))

/-- The candidate loop of `parseDate` up to the first candidate that parses: one record for
each earlier candidate that is not blank, none for a blank one, and a result that does not
depend on the candidates after the one that parses. -/
theorem parseDateLoop_first (env : Env) (feed : Feed) (d : String)
    (t : Int) (hd : TrimSpace d ≠ "")
    (hparse : parseFormats env (TrimSpace d) dateFormats = some t) :
    ∀ (pre : List String) (w : World),
      (∀ x ∈ pre, TrimSpace x = "" ∨
        ∀ f ∈ dateFormats, env.timeParse f (TrimSpace x) = none) →
      ∃ recs : List DateFormat,
        recs.map (fun r => r.Value) = (pre.map TrimSpace).filter (fun x => decide (x ≠ "")) ∧
        (∀ r ∈ recs, r.Feed = feed.Url ∧ 0 ≤ r.Id ∧ r.Id < 500) ∧
        ∀ ds post : List String,
          (parseDateLoop env feed ds (pre ++ d :: post) w).1 = (t, none) ∧
          (parseDateLoop env feed ds (pre ++ d :: post) w).2.drawn = w.drawn + recs.length ∧
          (parseDateLoop env feed ds (pre ++ d :: post) w).2.puts = w.puts ++ recs := by
  intro pre
  induction pre with
  | nil =>
    intro w _
    refine ⟨[], rfl, by simp, ?_⟩
    intro ds post
    simp only [List.nil_append]
    unfold parseDateLoop
    simp [hd, hparse]
  | cons x rest ih =>
    intro w hpre
    have hrest : ∀ y ∈ rest, TrimSpace y = "" ∨
        ∀ f ∈ dateFormats, env.timeParse f (TrimSpace y) = none :=
      fun y hy => hpre y (List.mem_cons_of_mem x hy)
    by_cases hx : TrimSpace x = ""
    · rcases ih w hrest with ⟨recs, hval, hrec, hrun⟩
      refine ⟨recs, ?_, hrec, ?_⟩
      · rw [hval]
        simp [hx]
      · intro ds post
        simp only [List.cons_append]
        unfold parseDateLoop
        simp only [hx, if_true]
        exact hrun ds post
    · have hnone : parseFormats env (TrimSpace x) dateFormats = none := by
        rcases hpre x (List.mem_cons_self x rest) with h | h
        · exact absurd h hx
        · exact parseFormats_none env (TrimSpace x) dateFormats h
      rcases ih { w with drawn := w.drawn + 1,
                         puts := w.puts ++ [{ Id := ((w.rand w.drawn % dateFormatCount : Nat) : Int),
                                              Feed := feed.Url, Value := TrimSpace x }] } hrest
        with ⟨recs, hval, hrec, hrun⟩
      refine ⟨{ Id := ((w.rand w.drawn % dateFormatCount : Nat) : Int),
                Feed := feed.Url, Value := TrimSpace x } :: recs, ?_, ?_, ?_⟩
      · simp [hx, hval]
      · intro r hr
        rcases List.mem_cons.1 hr with rfl | hr
        · refine ⟨rfl, Int.natCast_nonneg _, ?_⟩
          have : w.rand w.drawn % dateFormatCount < 500 := Nat.mod_lt _ (by decide)
          show ((w.rand w.drawn % dateFormatCount : Nat) : Int) < 500
          exact_mod_cast this
        · exact hrec r hr
      · intro ds post
        simp only [List.cons_append]
        unfold parseDateLoop
        simp only [hx, if_false, hnone]
        rcases hrun ds post with ⟨h1, h2, h3⟩
        refine ⟨h1, ?_, ?_⟩
        · rw [h2]
          simp only [List.length_cons]
          omega
        · rw [h3]
          simp

/-- C20: let `d` be the earliest candidate that is non-blank after trimming and that some
pattern of `dateFormats` parses (every candidate of `pre`, before it, is blank or parsed by
no pattern), and let `fmt` be the earliest pattern that parses it, with result `t`. Then
`parseDate` returns `t` without error; it writes exactly one `DateFormat` record for each
non-blank candidate of `pre`, in order, with the trimmed candidate as `Value`, the feed's
`Url` as `Feed` and an `Id` in `[0, 500)`, and none for a blank candidate, drawing once per
record; and the result and the records are the same for every list `post` of candidates
after `d`. -/
theorem parseDate_first_success (env : Env) (feed : Feed) (pre : List String) (d : String)
    (w : World) (fpre fpost : List String) (fmt : String) (t : Int)
    (hpre : ∀ x ∈ pre, TrimSpace x = "" ∨
      ∀ f ∈ dateFormats, env.timeParse f (TrimSpace x) = none)
    (hd : TrimSpace d ≠ "")
    (hcat : dateFormats = fpre ++ fmt :: fpost)
    (hfpre : ∀ f ∈ fpre, env.timeParse f (TrimSpace d) = none)
    (hfmt : env.timeParse fmt (TrimSpace d) = some t) :
    ∃ recs : List DateFormat,
      recs.map (fun r => r.Value) = (pre.map TrimSpace).filter (fun x => decide (x ≠ "")) ∧
      (∀ r ∈ recs, r.Feed = feed.Url ∧ 0 ≤ r.Id ∧ r.Id < 500) ∧
      ∀ post : List String,
        (parseDate env feed (pre ++ d :: post) w).1 = (t, none) ∧
        (parseDate env feed (pre ++ d :: post) w).2.drawn = w.drawn + recs.length ∧
        (parseDate env feed (pre ++ d :: post) w).2.puts = w.puts ++ recs := by
  have hparse : parseFormats env (TrimSpace d) dateFormats = some t := by
    rw [hcat]
    exact parseFormats_first env (TrimSpace d) t fmt fpost hfmt fpre hfpre
  rcases parseDateLoop_first env feed d t hd hparse pre w hpre with ⟨recs, hval, hrec, hrun⟩
  exact ⟨recs, hval, hrec, fun post => hrun (pre ++ d :: post) post⟩

set_option maxRecDepth 100000 in
theorem parseDate_first_success_witness :
    (∀ x ∈ ["", " yesterday "], TrimSpace x = "" ∨
      ∀ f ∈ dateFormats, (sampleEnv sampleRss).timeParse f (TrimSpace x) = none) ∧
    TrimSpace " 2013-05-01" ≠ "" ∧
    dateFormats = dateFormats.take 26 ++ "2006-01-02" :: dateFormats.drop 27 ∧
    (∀ f ∈ dateFormats.take 26, (sampleEnv sampleRss).timeParse f (TrimSpace " 2013-05-01") = none) ∧
    (sampleEnv sampleRss).timeParse "2006-01-02" (TrimSpace " 2013-05-01")
      = some 63502963200000000000 ∧
    (parseDate (sampleEnv sampleRss) sampleFeed ["", " yesterday ", " 2013-05-01", "later"]
        sampleWorld).1 = (63502963200000000000, none) ∧
    (parseDate (sampleEnv sampleRss) sampleFeed ["", " yesterday ", " 2013-05-01", "later"]
        sampleWorld).2.puts
      = [{ Id := 234, Feed := "http://example.org/feed", Value := "yesterday" }] ∧
    ∃ recs : List DateFormat,
      recs.map (fun r => r.Value)
        = (["", " yesterday "].map TrimSpace).filter (fun x => decide (x ≠ "")) ∧
      (∀ r ∈ recs, r.Feed = sampleFeed.Url ∧ 0 ≤ r.Id ∧ r.Id < 500) ∧
      ∀ post : List String,
        (parseDate (sampleEnv sampleRss) sampleFeed (["", " yesterday "] ++ " 2013-05-01" :: post)
          sampleWorld).1 = (63502963200000000000, none) ∧
        (parseDate (sampleEnv sampleRss) sampleFeed (["", " yesterday "] ++ " 2013-05-01" :: post)
          sampleWorld).2.drawn = sampleWorld.drawn + recs.length ∧
        (parseDate (sampleEnv sampleRss) sampleFeed (["", " yesterday "] ++ " 2013-05-01" :: post)
          sampleWorld).2.puts = sampleWorld.puts ++ recs :=
  ⟨by decide, by decide, by decide, by decide, by decide, by decide, by decide,
    parseDate_first_success (sampleEnv sampleRss) sampleFeed ["", " yesterday "] " 2013-05-01"
      sampleWorld (dateFormats.take 26) (dateFormats.drop 27) "2006-01-02" 63502963200000000000
      (by decide) (by decide) (by decide) (by decide) (by decide)⟩

/-! ## Theorems: the smoothed average -/

theorem F64.round_nonneg (m e : Int) (hm : 0 ≤ m) : 0 ≤ (F64.round m e).m := by
  unfold F64.round
  simp only
  split_ifs
  · exact hm
  · exact Int.mul_nonneg (Int.sign_nonneg.2 hm) (Int.natCast_nonneg _)
  · exact Int.mul_nonneg (Int.sign_nonneg.2 hm) (Int.natCast_nonneg _)

theorem F64.toInt_nonneg (x : F64) (hx : 0 ≤ x.m) : 0 ≤ F64.toInt x := by
  unfold F64.toInt
  split_ifs
  · exact Int.mul_nonneg hx (Int.natCast_nonneg _)
  · exact Int.tdiv_nonneg hx (Int.natCast_nonneg _)

/-- The smoothing expression is not negative when the weights, the old average and the
interval are not. -/
theorem float64Blend_nonneg (c0 c1 : F64) (a i : Int) (hc0 : 0 ≤ c0.m) (hc1 : 0 ≤ c1.m)
    (ha : 0 ≤ a) (hi : 0 ≤ i) : 0 ≤ float64Blend c0 c1 a i := by
  unfold float64Blend
  simp only
  apply F64.toInt_nonneg
  unfold F64.add
  simp only
  apply F64.round_nonneg
  have h1 : 0 ≤ (F64.mul (F64.ofInt a) c0).m :=
    F64.round_nonneg _ _ (Int.mul_nonneg (F64.round_nonneg a 0 ha) hc0)
  have h2 : 0 ≤ (F64.mul (F64.ofInt i) c1).m :=
    F64.round_nonneg _ _ (Int.mul_nonneg (F64.round_nonneg i 0 hi) hc1)
  exact Int.add_nonneg (Int.mul_nonneg h1 (Int.natCast_nonneg _))
    (Int.mul_nonneg h2 (Int.natCast_nonneg _))

theorem Since_nonneg (now t : Int) (h : t ≤ now) : 0 ≤ Since now t := by
  unfold Since Sub maxDuration minDuration
  split_ifs <;> omega

/-- The feed after `updateAverage` when there is something to average. -/
theorem updateAverage_eq (cfg : Settings) (now : Int) (f : Feed) (previousUpdate : Int)
    (updateCount : Int) (hprev : previousUpdate ≠ 0) (hcount : 1 ≤ updateCount) :
    updateAverage cfg now f previousUpdate updateCount =
      { f with Average :=
          wrap64 (cfg.blendAverage f.Average ((Since now previousUpdate).tdiv updateCount)) } := by
  have hc : ¬ updateCount < 1 := by omega
  simp [updateAverage, IsZero, hprev, hc]

/-- C15, amended: with the smoothing expression evaluated in `float64` and weights that are
not negative, for a feed with `Average >= 0`, a `previousUpdate` that is not after the clock
reading and every `updateCount`, the `Average` after `updateAverage` is `>= 0`, provided the
`float64` sum is within the range of a `Duration`. -/
theorem updateAverage_nonneg (cfg : Settings) (c0 c1 : F64) (now : Int) (f : Feed)
    (previousUpdate : Int) (updateCount : Int)
    (hc0 : 0 ≤ c0.m) (hc1 : 0 ≤ c1.m) (havg : 0 ≤ f.Average)
    (hprev : previousUpdate ≤ now)
    (hfit : float64Blend c0 c1 f.Average ((Since now previousUpdate).tdiv updateCount)
      ≤ maxDuration) :
    0 ≤ (updateAverage (withFloatBlend c0 c1 cfg) now f previousUpdate updateCount).Average := by
  by_cases hnoop : previousUpdate = 0 ∨ updateCount < 1
  · rcases hnoop with h | h <;> simpa [updateAverage, IsZero, h] using havg
  · have hp : previousUpdate ≠ 0 := fun h => hnoop (Or.inl h)
    have hcnt : 1 ≤ updateCount := by
      have : ¬ updateCount < 1 := fun h => hnoop (Or.inr h)
      omega
    rw [updateAverage_eq _ now f previousUpdate updateCount hp hcnt]
    have hi : 0 ≤ (Since now previousUpdate).tdiv updateCount :=
      Int.tdiv_nonneg (Since_nonneg now previousUpdate hprev) (by omega)
    have hb := float64Blend_nonneg c0 c1 f.Average _ hc0 hc1 havg hi
    show 0 ≤ wrap64 (float64Blend c0 c1 f.Average ((Since now previousUpdate).tdiv updateCount))
    rw [wrap64_of_range _ (by omega) (by unfold maxDuration at hfit; omega)]
    exact hb

set_option maxRecDepth 100000 in
theorem updateAverage_nonneg_witness :
    0 ≤ sampleWeightOld.m ∧ 0 ≤ sampleWeightNew.m ∧ 0 ≤ sampleFeed.Average ∧
    (63499990000000000000 : Int) ≤ 63500000000000000000 ∧
    float64Blend sampleWeightOld sampleWeightNew sampleFeed.Average
      ((Since 63500000000000000000 63499990000000000000).tdiv 5) ≤ maxDuration ∧
    (updateAverage (withFloatBlend sampleWeightOld sampleWeightNew sampleSettings)
      63500000000000000000 sampleFeed 63499990000000000000 5).Average = 6992000000000 ∧
    0 ≤ (updateAverage (withFloatBlend sampleWeightOld sampleWeightNew sampleSettings)
      63500000000000000000 sampleFeed 63499990000000000000 5).Average :=
  ⟨by decide, by decide, by decide, by decide, by decide, by decide,
    updateAverage_nonneg sampleSettings sampleWeightOld sampleWeightNew 63500000000000000000
      sampleFeed 63499990000000000000 5 (by decide) (by decide) (by decide) (by decide)
      (by decide)⟩

/-- C15, as stated, fails: for the feed with `Average = 0`, a `previousUpdate` one hour after
the clock reading and `updateCount = 1`, the interval is minus one hour and the `Average`
after `updateAverage` is `-144000000000` (the weights are the `float64` values of `0.96` and
`0.04`; the sign is the same for every positive weight of ordinary size). -/
theorem updateAverage_nonneg_counterexample :
    0 ≤ ({ sampleFeed with Average := 0 } : Feed).Average ∧
    (Since 63500000000000000000 63500003600000000000).tdiv 1 = -3600000000000 ∧
    (updateAverage (withFloatBlend sampleWeightOld sampleWeightNew sampleSettings)
      63500000000000000000 { sampleFeed with Average := 0 } 63500003600000000000 1).Average
      = -144000000000 ∧
    ¬ 0 ≤ (updateAverage (withFloatBlend sampleWeightOld sampleWeightNew sampleSettings)
      63500000000000000000 { sampleFeed with Average := 0 } 63500003600000000000 1).Average := by
  set_option maxRecDepth 100000 in decide

/-! ## Theorems: RSS media -/

theorem rssMedia_rule (i : rss.Item) : RssMediaRule i (rssMedia i) := by
  unfold RssMediaRule rssMedia audioEnclosure audioMedia
  refine ⟨?_, ?_, ?_⟩
  · intro e he hp
    simp [he, hp]
  · intro m hne hm hp
    cases he : i.Enclosure with
    | none => simp [hm, hp]
    | some e =>
      have hf : HasPrefix e.Type_ "audio/" = false := by
        cases hpe : HasPrefix e.Type_ "audio/" with
        | false => rfl
        | true => exact absurd ⟨e, he, hpe⟩ hne
      simp [hf, hm, hp]
  · intro hne hnm
    have hmedia : (match i.Media with
        | some m => if HasPrefix m.Type_ "audio/" = true then m.URL else ""
        | none => "") = "" := by
      cases hm : i.Media with
      | none => rfl
      | some m =>
        have hf : HasPrefix m.Type_ "audio/" = false := by
          cases hpm : HasPrefix m.Type_ "audio/" with
          | false => rfl
          | true => exact absurd ⟨m, hm, hpm⟩ hnm
        simp [hf]
    cases he : i.Enclosure with
    | none => simpa using hmedia
    | some e =>
      have hf : HasPrefix e.Type_ "audio/" = false := by
        cases hpe : HasPrefix e.Type_ "audio/" with
        | false => rfl
        | true => exact absurd ⟨e, he, hpe⟩ hne
      simpa [hf] using hmedia

/-- The title statement of the item loop leaves the enclosure and the media element of the
loop variable as they are. -/
theorem rssMedia_titled (i : rss.Item) : rssMedia (rssItemTitled i) = rssMedia i := by
  unfold rssItemTitled
  split_ifs <;> rfl

theorem rssStory_MediaContent (env : Env) (f : Feed) (i : rss.Item) (w : World) :
    (rssStory env f i w).1.MediaContent = rssMedia i := by
  have key : (rssStory env f i w).1.MediaContent = (rssFields i).MediaContent := by
    unfold rssStory
    exact withDate_proj env f _ _ (rssFields i) w (fun s : Story => s.MediaContent)
      (fun _ _ => rfl)
  rw [key]
  exact rssMedia_titled i

/-- C21: when the Atom decoder fails and the RSS decoder succeeds, `ParseFeed` returns what
`parseFix` returns on the draft feed and the draft stories of `rssDraft`, one story per item
and in the order of the items, and the `MediaContent` of the draft story of every item is the
enclosure URL when the item has an enclosure whose type starts with `audio/`, else the URL of
the media element when the item has a media element whose type starts with `audio/`, else
empty; so it is never taken from an element whose type does not start with `audio/`. -/
theorem ParseFeed_rss_media (env : Env) (now : Int) (u : String) (b : List Nat)
    (w : World) (e : String) (r : rss.Rss)
    (hatom : env.decodeAtom b = .error e) (hrss : env.decodeRss b = .ok r) :
    (ParseFeed env now u b w).1
      = parseFix env now (rssDraft env u r w).1 (rssDraft env u r w).2.1 ∧
    List.Forall₂ (fun (i : rss.Item) (st : Story) => RssMediaRule i st.MediaContent)
      r.Items (rssDraft env u r w).2.1 := by
  refine ⟨?_, ?_⟩
  · unfold ParseFeed
    simp only [hatom, hrss]
  · have key : ∀ (f : Feed) (w1 : World),
        List.Forall₂ (fun (i : rss.Item) (st : Story) => RssMediaRule i st.MediaContent)
          r.Items (storyLoop (rssStory env f) r.Items [] w1).1 := by
      intro f w1
      rcases storyLoop_forall2 (rssStory env f)
          (fun (i : rss.Item) (st : Story) => RssMediaRule i st.MediaContent)
          (fun i w => by
            show RssMediaRule i (rssStory env f i w).1.MediaContent
            rw [rssStory_MediaContent]
            exact rssMedia_rule i)
          r.Items [] w1 with ⟨l, hl, hall⟩
      rw [hl]
      exact hall
    exact key _ _

set_option maxRecDepth 100000 in
theorem ParseFeed_rss_media_witness :
    (sampleEnv sampleMediaRss).decodeAtom [60, 114, 115, 115, 62] = .error "not an atom feed" ∧
    (sampleEnv sampleMediaRss).decodeRss [60, 114, 115, 115, 62] = .ok sampleMediaRss ∧
    (rssDraft (sampleEnv sampleMediaRss) "http://example.org/feed" sampleMediaRss
      sampleWorld).2.1.map (fun st => st.MediaContent)
      = ["http://example.org/1.mp3", "http://example.org/2.ogg", "", ""] ∧
    (ParseFeed (sampleEnv sampleMediaRss) 63500000000000000000 "http://example.org/feed"
      [60, 114, 115, 115, 62] sampleWorld).1.stories.map (fun st => st.MediaContent)
      = ["http://example.org/1.mp3", "http://example.org/2.ogg", "", ""] ∧
    ((ParseFeed (sampleEnv sampleMediaRss) 63500000000000000000 "http://example.org/feed"
        [60, 114, 115, 115, 62] sampleWorld).1
        = parseFix (sampleEnv sampleMediaRss) 63500000000000000000
            (rssDraft (sampleEnv sampleMediaRss) "http://example.org/feed" sampleMediaRss
              sampleWorld).1
            (rssDraft (sampleEnv sampleMediaRss) "http://example.org/feed" sampleMediaRss
              sampleWorld).2.1 ∧
      List.Forall₂ (fun (i : rss.Item) (st : Story) => RssMediaRule i st.MediaContent)
        sampleMediaRss.Items
        (rssDraft (sampleEnv sampleMediaRss) "http://example.org/feed" sampleMediaRss
          sampleWorld).2.1) :=
  ⟨rfl, rfl, by decide, by decide,
    ParseFeed_rss_media (sampleEnv sampleMediaRss) 63500000000000000000
      "http://example.org/feed" [60, 114, 115, 115, 62] sampleWorld "not an atom feed"
      sampleMediaRss rfl rfl⟩

/-! ## Theorems: two runs at two clock readings -/

theorem fixKept_Created (env : Env) (f : Feed) (fk : String) (base : Option URL) (s t : Story)
    (h : fixKept env f fk base s = some t) : t.Created = f.Checked := by
  have hkeep : fixStory env f fk base s = Fixed.keep t := by
    unfold fixKept at h
    split at h
    · rename_i u hu
      injection h with h
      rw [hu, h]
    · exact Option.noConfusion h
  generalize hd : fixDates f
    { s with Parent := fk, Created := f.Checked, Link := TrimSpace s.Link } = d at *
  have hcr : d.Created = f.Checked := by
    rw [← hd]
    unfold fixDates
    simp only
    split_ifs <;> rfl
  have htail : Fixed.map (setClock d.Created d.Published d.Date)
      (fixTail env base (eraseClock d)) = Fixed.keep t := by
    rw [← fixTail_setClock]
    have hfix : fixTail env base d = Fixed.keep t := by
      rw [← hd, ← fixStory_eq_fixTail]
      exact hkeep
    exact hfix
  cases hE : fixTail env base (eraseClock d) with
  | abort => rw [hE] at htail; exact Fixed.noConfusion htail
  | skip => rw [hE] at htail; exact Fixed.noConfusion htail
  | keep a =>
    rw [hE] at htail
    simp only [Fixed.map] at htail
    injection htail with htail
    rw [← htail]
    exact hcr

/-- The loop body at two clock readings, for one draft: the story is dropped in both runs,
or kept in both, and the two kept stories are in the agreement `storiesAgree`. -/
theorem fixKept_agree (env : Env) (f1 f2 : Feed) (fk : String) (base : Option URL)
    (d : Story) :
    (fixKept env f1 fk base d = none ∧ fixKept env f2 fk base d = none) ∨
    ∃ a b, fixKept env f1 fk base d = some a ∧ fixKept env f2 fk base d = some b ∧
      storiesAgree f1.Checked f2.Checked d a b := by
  rcases fixKept_clock env f1 f2 fk base d with hnone | ⟨a, b, ha, hb, herase, _⟩
  · exact Or.inl hnone
  · right
    refine ⟨a, b, ha, hb, ?_⟩
    have sa := fixKept_spec env f1 fk base d a ha
    have sb := fixKept_spec env f2 fk base d b hb
    have hpa : a.Published
        = (if draftDate d ≠ 0 ∧ draftDate d ≤ f1.Checked then draftDate d else f1.Checked) :=
      sa.2.2.2.1
    have hpb : b.Published
        = (if draftDate d ≠ 0 ∧ draftDate d ≤ f2.Checked then draftDate d else f2.Checked) :=
      sb.2.2.2.1
    have hda : a.Date = (if d.Updated ≠ 0 then Unix d.Updated else Unix a.Published) := by
      rw [sa.2.2.2.2, sa.2.2.1]
    have hdb : b.Date = (if d.Updated ≠ 0 then Unix d.Updated else Unix b.Published) := by
      rw [sb.2.2.2.2, sb.2.2.1]
    refine ⟨herase, fixKept_Created env f1 fk base d a ha,
      fixKept_Created env f2 fk base d b hb, hpa, hpb, hda, hdb, ?_, ?_⟩
    · intro hu
      rw [hda, hdb, if_pos hu, if_pos hu]
    · intro h0 h1 h2
      have hpeq : a.Published = b.Published := by
        rw [hpa, hpb, if_pos ⟨h0, h1⟩, if_pos ⟨h0, h2⟩]
      refine ⟨hpeq, ?_⟩
      rw [hda, hdb, hpeq]

theorem filterMap_forallThree {α β : Type} (R : α → β → β → Prop) (g1 g2 : α → Option β)
    (h : ∀ a, (g1 a = none ∧ g2 a = none) ∨
      ∃ b1 b2, g1 a = some b1 ∧ g2 a = some b2 ∧ R a b1 b2)
    (l : List α) :
    ∃ kept : List α, kept.Sublist l ∧
      ForallThree R kept (l.filterMap g1) (l.filterMap g2) := by
  induction l with
  | nil => exact ⟨[], List.Sublist.slnil, ForallThree.nil⟩
  | cons a rest ih =>
    rcases ih with ⟨kept, hsub, hall⟩
    rcases h a with ⟨h1, h2⟩ | ⟨b1, b2, h1, h2, hr⟩
    · refine ⟨kept, List.Sublist.cons a hsub, ?_⟩
      rw [List.filterMap_cons_none h1, List.filterMap_cons_none h2]
      exact hall
    · refine ⟨a :: kept, List.Sublist.cons₂ a hsub, ?_⟩
      rw [List.filterMap_cons_some h1, List.filterMap_cons_some h2]
      exact ForallThree.cons hr hall

/-- Two runs of `parseFix` on the same drafts at two clock readings. -/
theorem parseFix_clock (env : Env) (now1 now2 : Int) (f : Feed) (ss : List Story) :
    agreeExceptClock now1 now2 ss (parseFix env now1 f ss) (parseFix env now2 f ss) := by
  by_cases hbad : ∃ s ∈ ss, s.Id = "" ∧ TrimSpace s.Link = "" ∧ s.Title = ""
  · rw [parseFix_abort env now1 f ss hbad, parseFix_abort env now2 f ss hbad]
    exact ⟨rfl, rfl, fun g hg => Option.noConfusion hg, fun g hg => Option.noConfusion hg,
      [], List.nil_sublist ss, ForallThree.nil⟩
  · rw [parseFix_ok env now1 f ss hbad, parseFix_ok env now2 f ss hbad]
    have hl1 : (fixFeed env now1 f).Link = (fixFeed env 0 f).Link := by
      rw [fixFeed_clock env now1 f]
    have hl2 : (fixFeed env now2 f).Link = (fixFeed env 0 f).Link := by
      rw [fixFeed_clock env now2 f]
    have hc1 : (fixFeed env now1 f).Checked = now1 := by rw [fixFeed_clock env now1 f]
    have hc2 : (fixFeed env now2 f).Checked = now2 := by rw [fixFeed_clock env now2 f]
    refine ⟨rfl, ?_, ?_, ?_, ?_⟩
    · simp only [Option.map_some']
      rw [fixFeed_clock env now1 f, fixFeed_clock env now2 f]
    · intro g hg
      injection hg with hg
      rw [← hg, hc1]
    · intro g hg
      injection hg with hg
      rw [← hg, hc2]
    · simp only [hl1, hl2]
      apply filterMap_forallThree
      intro s
      have := fixKept_agree env (fixFeed env now1 f) (fixFeed env now2 f) (env.feedKey f.Url)
        (env.urlParse (fixFeed env 0 f).Link) s
      rw [hc1, hc2] at this
      exact this

/-- C10, amended: two runs of `ParseFeed` on the same URL, bytes and collaborators that
differ only in the clock reading return the same error, leave the same random draws and
date-failure writes, and return feeds equal in every field except `Checked` and story lists
of equal length, built in order from the same draft stories, whose stories are equal, one by
one, in every field except `Created` and, in two cases only, `Published` and `Date`.
`Published` differs only for a story whose draft date (`Published`, or `Updated` when
`Published` is unset) is unset or after the clock reading of one of the runs: such a run sets
`Published` to its clock reading. `Date` differs only for such a story whose `Updated` is
unset as well: it is the epoch seconds of `Published`. For a story with `Updated` set, `Date`
is the same in both runs. -/
theorem ParseFeed_clock (env : Env) (now1 now2 : Int) (u : String) (b : List Nat)
    (w : World) :
    agreeExceptClock now1 now2 (ParseFeedDrafts env u b w) (ParseFeed env now1 u b w).1
      (ParseFeed env now2 u b w).1 ∧
    (ParseFeed env now1 u b w).2.drawn = (ParseFeed env now2 u b w).2.drawn ∧
    (ParseFeed env now1 u b w).2.puts = (ParseFeed env now2 u b w).2.puts := by
  unfold ParseFeed ParseFeedDrafts
  cases env.decodeAtom b with
  | ok a => exact ⟨parseFix_clock env now1 now2 _ _, rfl, rfl⟩
  | error e1 =>
    cases env.decodeRss b with
    | ok r => exact ⟨parseFix_clock env now1 now2 _ _, rfl, rfl⟩
    | error e2 =>
      cases env.decodeRdf b with
      | ok rd => exact ⟨parseFix_clock env now1 now2 _ _, rfl, rfl⟩
      | error e3 =>
        exact ⟨⟨rfl, rfl, fun g hg => Option.noConfusion hg, fun g hg => Option.noConfusion hg,
          [], List.Sublist.slnil, ForallThree.nil⟩, rfl, rfl⟩

theorem float64BlendFused_separate (c0 c1 : F64) (a i : Int) :
    float64BlendFused Fusion.separate c0 c1 a i = float64Blend c0 c1 a i := rfl

/-- C16, amended: for every feed, every non-zero `previousUpdate` and every
`updateCount >= 1`, `updateAverage` changes only `Average`, and the new `Average` is the
`float64` value of `Average_old * (1 - w) + interval * w` with its fraction discarded, where
`interval` is the time since `previousUpdate` divided by `updateCount` with the quotient
truncated, both operands are first converted to `float64`, `c0` and `c1` are the `float64`
values of `1 - w` and `w`, the sum is rounded to nearest, and each product is rounded to
nearest before the sum or, in an implementation that fuses it with the sum, enters the sum
exact; this holds for each of the four fusions `fz` that Go permits, provided the sum is
within the range of a `Duration`. -/
theorem updateAverage_smoothing (cfg : Settings) (fz : Fusion) (c0 c1 : F64) (now : Int)
    (f : Feed) (previousUpdate : Int) (updateCount : Int)
    (hprev : previousUpdate ≠ 0) (hcount : 1 ≤ updateCount)
    (hlo : minDuration ≤
      F64.toInt (F64.add (fusedOld fz c0 f.Average)
        (fusedNew fz c1 ((Since now previousUpdate).tdiv updateCount))))
    (hhi : F64.toInt (F64.add (fusedOld fz c0 f.Average)
        (fusedNew fz c1 ((Since now previousUpdate).tdiv updateCount)))
      ≤ maxDuration) :
    updateAverage (withFusedBlend fz c0 c1 cfg) now f previousUpdate updateCount =
      { f with Average :=
          F64.toInt (F64.add (fusedOld fz c0 f.Average)
            (fusedNew fz c1 ((Since now previousUpdate).tdiv updateCount))) } ∧
    fusedOld Fusion.separate c0 f.Average = F64.mul (F64.ofInt f.Average) c0 ∧
    fusedOld Fusion.newProduct c0 f.Average = F64.mul (F64.ofInt f.Average) c0 ∧
    fusedOld Fusion.oldProduct c0 f.Average = F64.exactMul (F64.ofInt f.Average) c0 ∧
    fusedOld Fusion.both c0 f.Average = F64.exactMul (F64.ofInt f.Average) c0 ∧
    (∀ i : Int, fusedNew Fusion.separate c1 i = F64.mul (F64.ofInt i) c1 ∧
      fusedNew Fusion.oldProduct c1 i = F64.mul (F64.ofInt i) c1 ∧
      fusedNew Fusion.newProduct c1 i = F64.exactMul (F64.ofInt i) c1 ∧
      fusedNew Fusion.both c1 i = F64.exactMul (F64.ofInt i) c1) := by
  refine ⟨?_, rfl, rfl, rfl, rfl, fun i => ⟨rfl, rfl, rfl, rfl⟩⟩
  rw [updateAverage_eq _ now f previousUpdate updateCount hprev hcount]
  unfold minDuration at hlo
  unfold maxDuration at hhi
  have hw := wrap64_of_range _ hlo hhi
  show ({ f with Average := wrap64 (float64BlendFused fz c0 c1 f.Average
    ((Since now previousUpdate).tdiv updateCount)) } : Feed) = _
  unfold float64BlendFused
  simp only [hw]

set_option maxRecDepth 100000 in
theorem updateAverage_smoothing_witness :
    (63499998831683781919 : Int) ≠ 0 ∧ (1 : Int) ≤ 1 ∧
    (Since 63500000000000000000 63499998831683781919).tdiv 1 = 1168316218081 ∧
    (updateAverage (withFusedBlend Fusion.separate sampleWeightOld sampleWeightNew sampleSettings)
      63500000000000000000 { sampleFeed with Average := 18557719951231 }
      63499998831683781919 1).Average = 17862143801904 ∧
    (updateAverage (withFusedBlend Fusion.oldProduct sampleWeightOld sampleWeightNew
      sampleSettings) 63500000000000000000 { sampleFeed with Average := 18557719951231 }
      63499998831683781919 1).Average = 17862143801905 ∧
    (updateAverage (withFusedBlend Fusion.newProduct sampleWeightOld sampleWeightNew
      sampleSettings) 63500000000000000000 { sampleFeed with Average := 18557719951231 }
      63499998831683781919 1).Average = 17862143801904 ∧
    (updateAverage (withFusedBlend Fusion.both sampleWeightOld sampleWeightNew sampleSettings)
      63500000000000000000 { sampleFeed with Average := 18557719951231 }
      63499998831683781919 1).Average = 17862143801905 ∧
    updateAverage (withFusedBlend Fusion.oldProduct sampleWeightOld sampleWeightNew
        sampleSettings) 63500000000000000000 { sampleFeed with Average := 18557719951231 }
        63499998831683781919 1
      = { ({ sampleFeed with Average := 18557719951231 } : Feed) with
          Average :=
            F64.toInt (F64.add
              (fusedOld Fusion.oldProduct sampleWeightOld
                ({ sampleFeed with Average := 18557719951231 } : Feed).Average)
              (fusedNew Fusion.oldProduct sampleWeightNew
                ((Since 63500000000000000000 63499998831683781919).tdiv 1))) } :=
  ⟨by decide, by decide, by decide, by decide, by decide, by decide, by decide,
    (updateAverage_smoothing sampleSettings Fusion.oldProduct sampleWeightOld sampleWeightNew
      63500000000000000000 { sampleFeed with Average := 18557719951231 }
      63499998831683781919 1 (by decide) (by decide) (by decide) (by decide)).1⟩

/-- C16, as stated, fails: for `Average = 9007199254740993` (2^53 + 1 nanoseconds) and an
interval of the same length, `Average_old * (1 - w) + interval * w` is `9007199254740993` for
every weight `w`, and `updateAverage` gives `9007199254740992` under each of the four
fusions: the conversion `float64` of `9007199254740993` is `9007199254740992`, and no
`float64` value has the odd integer as its whole part. -/
theorem updateAverage_smoothing_counterexample :
    (63490992800745259007 : Int) ≠ 0 ∧
    (Since 63500000000000000000 63490992800745259007).tdiv 1 = 9007199254740993 ∧
    specSmoothing 1 25 9007199254740993 9007199254740993 = 9007199254740993 ∧
    (∀ wn wd : Nat, 0 < wd →
      specSmoothing wn wd 9007199254740993 9007199254740993 = 9007199254740993) ∧
    F64.ofInt 9007199254740993 = ⟨4503599627370496, 1⟩ ∧
    (updateAverage (withFloatBlend sampleWeightOld sampleWeightNew sampleSettings)
      63500000000000000000 { sampleFeed with Average := 9007199254740993 }
      63490992800745259007 1).Average = 9007199254740992 ∧
    (∀ fz : Fusion,
      (updateAverage (withFusedBlend fz sampleWeightOld sampleWeightNew sampleSettings)
        63500000000000000000 { sampleFeed with Average := 9007199254740993 }
        63490992800745259007 1).Average = 9007199254740992) := by
  set_option maxRecDepth 100000 in
  refine ⟨by decide, by decide, by decide, ?_, by decide, by decide, ?_⟩
  · intro wn wd hwd
    unfold specSmoothing
    have h : (9007199254740993 : Int) * ((wd : Int) - (wn : Int))
        + 9007199254740993 * (wn : Int) = 9007199254740993 * (wd : Int) := by ring
    rw [h]
    exact Int.mul_tdiv_cancel _ (by omega)
  · intro fz
    cases fz <;> decide

set_option maxRecDepth 100000 in
theorem ParseFeed_clock_witness :
    (ParseFeedDrafts (sampleEnv sampleDatedRss) "http://example.org/feed"
      [60, 114, 115, 115, 62] sampleWorld).map (fun d => (d.Published, d.Updated))
      = [(63502963200000000000, 63502963200000000000), (0, 0)] ∧
    (ParseFeed (sampleEnv sampleDatedRss) 63500000000000000000 "http://example.org/feed"
      [60, 114, 115, 115, 62] sampleWorld).1.stories.map
        (fun s => (s.Created, s.Published, s.Updated, s.Date))
      = [(63500000000000000000, 63500000000000000000, 63502963200000000000, 1367366400),
         (63500000000000000000, 63500000000000000000, 0, 1364403200)] ∧
    (ParseFeed (sampleEnv sampleDatedRss) 63500000001000000000 "http://example.org/feed"
      [60, 114, 115, 115, 62] sampleWorld).1.stories.map
        (fun s => (s.Created, s.Published, s.Updated, s.Date))
      = [(63500000001000000000, 63500000001000000000, 63502963200000000000, 1367366400),
         (63500000001000000000, 63500000001000000000, 0, 1364403201)] ∧
    (ParseFeed (sampleEnv sampleDatedRss) 63600000000000000000 "http://example.org/feed"
      [60, 114, 115, 115, 62] sampleWorld).1.stories.map
        (fun s => (s.Created, s.Published, s.Updated, s.Date))
      = [(63600000000000000000, 63502963200000000000, 63502963200000000000, 1367366400),
         (63600000000000000000, 63600000000000000000, 0, 1464403200)] ∧
    agreeExceptClock 63500000000000000000 63500000001000000000
      (ParseFeedDrafts (sampleEnv sampleDatedRss) "http://example.org/feed"
        [60, 114, 115, 115, 62] sampleWorld)
      (ParseFeed (sampleEnv sampleDatedRss) 63500000000000000000 "http://example.org/feed"
        [60, 114, 115, 115, 62] sampleWorld).1
      (ParseFeed (sampleEnv sampleDatedRss) 63500000001000000000 "http://example.org/feed"
        [60, 114, 115, 115, 62] sampleWorld).1 :=
  ⟨by decide, by decide, by decide, by decide,
    (ParseFeed_clock (sampleEnv sampleDatedRss) 63500000000000000000 63500000001000000000
      "http://example.org/feed" [60, 114, 115, 115, 62] sampleWorld).1⟩

end Goread
